import Mathlib

/-!
Verification development for the token-processing pipeline of the lemon
script compiler (TokenProcessing.cpp).  The definitions below are a shallow
embedding of the C++ source: enumerations, the data-type registry, the
cast-cost scoring, the overload scoring, and the individual processing
passes, each translated function by function.  Machine integers are
modelled as Nat / Int with explicit wrapping where the C++ types wrap.
-/

namespace Lemon

/-- Operator enumeration, in source declaration order (TokenTypes.h order is
fixed by the two lookup tables in TokenProcessing.cpp, which have exactly 41
entries in this order). -/
inductive Operator where
  | ASSIGN | ASSIGN_PLUS | ASSIGN_MINUS | ASSIGN_MULTIPLY | ASSIGN_DIVIDE
  | ASSIGN_MODULO | ASSIGN_SHIFT_LEFT | ASSIGN_SHIFT_RIGHT | ASSIGN_AND
  | ASSIGN_OR | ASSIGN_XOR
  | BINARY_PLUS | BINARY_MINUS | BINARY_MULTIPLY | BINARY_DIVIDE | BINARY_MODULO
  | BINARY_SHIFT_LEFT | BINARY_SHIFT_RIGHT | BINARY_AND | BINARY_OR | BINARY_XOR
  | LOGICAL_AND | LOGICAL_OR
  | UNARY_NOT | UNARY_BITNOT | UNARY_DECREMENT | UNARY_INCREMENT
  | COMPARE_EQUAL | COMPARE_NOT_EQUAL | COMPARE_LESS | COMPARE_LESS_OR_EQUAL
  | COMPARE_GREATER | COMPARE_GREATER_OR_EQUAL
  | QUESTIONMARK | COLON | SEMICOLON_SEPARATOR | COMMA_SEPARATOR
  | PARENTHESIS_LEFT | PARENTHESIS_RIGHT | BRACKET_LEFT | BRACKET_RIGHT
deriving DecidableEq, Repr

/-- The numeric value of an Operator in the C++ enum (used by
getOperatorNotAllowedErrorMessage's range comparisons and the lookup
tables). -/
def Operator.idx : Operator → Nat
  | .ASSIGN => 0 | .ASSIGN_PLUS => 1 | .ASSIGN_MINUS => 2 | .ASSIGN_MULTIPLY => 3
  | .ASSIGN_DIVIDE => 4 | .ASSIGN_MODULO => 5 | .ASSIGN_SHIFT_LEFT => 6
  | .ASSIGN_SHIFT_RIGHT => 7 | .ASSIGN_AND => 8 | .ASSIGN_OR => 9 | .ASSIGN_XOR => 10
  | .BINARY_PLUS => 11 | .BINARY_MINUS => 12 | .BINARY_MULTIPLY => 13
  | .BINARY_DIVIDE => 14 | .BINARY_MODULO => 15 | .BINARY_SHIFT_LEFT => 16
  | .BINARY_SHIFT_RIGHT => 17 | .BINARY_AND => 18 | .BINARY_OR => 19 | .BINARY_XOR => 20
  | .LOGICAL_AND => 21 | .LOGICAL_OR => 22
  | .UNARY_NOT => 23 | .UNARY_BITNOT => 24 | .UNARY_DECREMENT => 25 | .UNARY_INCREMENT => 26
  | .COMPARE_EQUAL => 27 | .COMPARE_NOT_EQUAL => 28 | .COMPARE_LESS => 29
  | .COMPARE_LESS_OR_EQUAL => 30 | .COMPARE_GREATER => 31 | .COMPARE_GREATER_OR_EQUAL => 32
  | .QUESTIONMARK => 33 | .COLON => 34 | .SEMICOLON_SEPARATOR => 35 | .COMMA_SEPARATOR => 36
  | .PARENTHESIS_LEFT => 37 | .PARENTHESIS_RIGHT => 38 | .BRACKET_LEFT => 39
  | .BRACKET_RIGHT => 40

/-- operatorPriorityLookup table from TokenProcessing.cpp, entry by entry. -/
def operatorPriorityLookup : Operator → Nat
  | .ASSIGN => 15 | .ASSIGN_PLUS => 15 | .ASSIGN_MINUS => 15 | .ASSIGN_MULTIPLY => 15
  | .ASSIGN_DIVIDE => 15 | .ASSIGN_MODULO => 15 | .ASSIGN_SHIFT_LEFT => 15
  | .ASSIGN_SHIFT_RIGHT => 15 | .ASSIGN_AND => 15 | .ASSIGN_OR => 15 | .ASSIGN_XOR => 15
  | .BINARY_PLUS => 6 | .BINARY_MINUS => 6
  | .BINARY_MULTIPLY => 5 | .BINARY_DIVIDE => 5 | .BINARY_MODULO => 5
  | .BINARY_SHIFT_LEFT => 7 | .BINARY_SHIFT_RIGHT => 7
  | .BINARY_AND => 10 | .BINARY_OR => 12 | .BINARY_XOR => 11
  | .LOGICAL_AND => 13 | .LOGICAL_OR => 14
  | .UNARY_NOT => 3 | .UNARY_BITNOT => 3 | .UNARY_DECREMENT => 3 | .UNARY_INCREMENT => 3
  | .COMPARE_EQUAL => 9 | .COMPARE_NOT_EQUAL => 9
  | .COMPARE_LESS => 8 | .COMPARE_LESS_OR_EQUAL => 8
  | .COMPARE_GREATER => 8 | .COMPARE_GREATER_OR_EQUAL => 8
  | .QUESTIONMARK => 15 | .COLON => 15
  | .SEMICOLON_SEPARATOR => 18 | .COMMA_SEPARATOR => 17
  | .PARENTHESIS_LEFT => 2 | .PARENTHESIS_RIGHT => 2
  | .BRACKET_LEFT => 2 | .BRACKET_RIGHT => 2

/-- operatorAssociativityLookup table, indexed by priority value
(false = left to right, true = right to left); 18 entries in the C++ array,
indices 0..17. -/
def operatorAssociativityTable : List Bool :=
  [false, false, false, true, false, false, false, false, false,
   false, false, false, false, false, false, true, true, false]

/-- Reading operatorAssociativityLookup[priority]; out-of-range reads do not
occur on the paths the compiler takes (priority 18, the semicolon, errors out
before the table is consulted). -/
def operatorAssociativityLookup (priority : Nat) : Bool :=
  operatorAssociativityTable.getD priority false

/-- Integer data-type semantics (DataTypes.h; modelled from the code's uses:
Semantics::CONSTANT marks the untyped constant class, and bool is an
unsigned 1-byte integer type distinct from uint8). -/
inductive Semantics where
  | DEFAULT | CONSTANT | BOOLEAN
deriving DecidableEq, Repr

/-- The payload of an integer data type: byte count, signedness, semantics
(fields mBytes, mIsSigned, mSemantics of IntegerDataType). -/
structure IntegerDT where
  bytes : Nat
  isSigned : Bool
  semantics : Semantics
deriving DecidableEq, Repr

/-- DataTypeDefinition, restricted to the classes the pipeline distinguishes
(mClass is either INTEGER or a non-integer class such as VOID).  Pointer
identity of the predefined singletons is modelled by structural equality,
which separates all of the predefined types below. -/
inductive DT where
  | void
  | integer (i : IntegerDT)
deriving DecidableEq, Repr

namespace PredefinedDataTypes

def VOID : DT := .void
def UINT_8 : DT := .integer ⟨1, false, .DEFAULT⟩
def UINT_16 : DT := .integer ⟨2, false, .DEFAULT⟩
def UINT_32 : DT := .integer ⟨4, false, .DEFAULT⟩
def UINT_64 : DT := .integer ⟨8, false, .DEFAULT⟩
def INT_8 : DT := .integer ⟨1, true, .DEFAULT⟩
def INT_16 : DT := .integer ⟨2, true, .DEFAULT⟩
def INT_32 : DT := .integer ⟨4, true, .DEFAULT⟩
def INT_64 : DT := .integer ⟨8, true, .DEFAULT⟩
def CONST_INT : DT := .integer ⟨8, true, .CONSTANT⟩
def BOOL : DT := .integer ⟨1, false, .BOOLEAN⟩

end PredefinedDataTypes

/-- Modelled from the spec: DataTypeHelper::getBaseType packs each integer
type's base-2 size class (log2 of the byte count: 0 for 1 byte, 1 for 2,
2 for 4, 3 for 8) into the low three bits of the BaseType value; only those
low three bits (`a & 0x07` in getImplicitCastPriority) are consumed here. -/
def baseTypeSizeClass (i : IntegerDT) : Nat :=
  match i.bytes with
  | 8 => 3
  | 4 => 2
  | 2 => 1
  | _ => 0

/-- getImplicitCastPriority from TokenProcessing.cpp, case for case.  The
uint8 return never wraps: every branch value is below 0x44 or is the
CANNOT_CAST sentinel 0xff. -/
def getImplicitCastPriority (original target : DT) : Nat :=
  if original = target then
    0
  else
    match original, target with
    | .integer originalInt, .integer targetInt =>
      if originalInt.semantics = .CONSTANT then
        1
      else if targetInt.semantics = .CONSTANT then
        1
      else if originalInt.bytes = targetInt.bytes then
        if originalInt.isSigned && !targetInt.isSigned then 0x02 else 0x01
      else
        let sizeA := baseTypeSizeClass originalInt
        let sizeB := baseTypeSizeClass targetInt
        if originalInt.bytes < targetInt.bytes then
          (if originalInt.isSigned && !targetInt.isSigned then 0x20 else 0x10)
            + (sizeB - sizeA)
        else
          (if originalInt.isSigned && !targetInt.isSigned then 0x40 else 0x30)
            + sizeB - sizeA
    | _, _ =>
      0xff

/-- The byte widths the type registry actually instantiates. -/
def isRegistryWidth (b : Nat) : Prop := b = 1 ∨ b = 2 ∨ b = 4 ∨ b = 8

/-- Failure modes of the pipeline: CHECK_ERROR aborts carry their message;
outOfBounds marks a read past the end of a token list (no explicit guard in
the C++); undefinedBehavior marks an arithmetic operation the C++ abstract
machine leaves undefined (a hardware trap in practice); outOfFuel pads the
fuel-based recursions and is never reached with adequate fuel. -/
inductive Err where
  | compileError (msg : String)
  | outOfBounds
  | undefinedBehavior
  | outOfFuel
  | invalidInput
deriving DecidableEq, Repr

/-- One registered function overload: the data the overload-resolution loop
reads from a Function (name, parameter types, return type). -/
structure FunctionSig where
  name : String
  params : List DT
  returnType : DT
deriving DecidableEq, Repr

/-- One insertion step of sorting into descending order (the net effect of
std::sort with std::greater in getPriorityOfSignature). -/
def insertDesc (x : Nat) : List Nat → List Nat
  | [] => [x]
  | y :: ys => if y ≤ x then x :: y :: ys else y :: insertDesc x ys

/-- Sort a priority list into descending order ("highest priority should be
first"). -/
def sortDescending : List Nat → List Nat
  | [] => []
  | x :: xs => insertDesc x (sortDescending xs)

/-- The packing loop of getPriorityOfSignature:
`result |= priorities[i] << (24 - i * 8)` for the first min(size, 4)
entries. -/
def packLoop : List Nat → Nat → Nat → Nat
  | [], _, result => result
  | p :: rest, i, result =>
    if i < 4 then packLoop rest (i + 1) (result ||| (p <<< (24 - i * 8))) else result

/-- getPriorityOfSignature (function-overload version): parameter-count
mismatch is the maximum key 0xffffffff; otherwise the per-parameter implicit
cast priorities are sorted descending and the top four are packed into a
32-bit key, highest cost in the most significant byte. -/
def getPriorityOfSignature (original : List DT) (target : List DT) : Nat :=
  if original.length ≠ target.length then
    0xffffffff
  else
    packLoop
      (sortDescending ((List.zip original target).map
        fun p => getImplicitCastPriority p.1 p.2))
      0 0

/-- One iteration of the best-overload loop in assignStatementDataType:
keep the candidate whose key is strictly smaller than the best so far. -/
def overloadStep (parameterTypes : List DT) (best : Nat × Option FunctionSig)
    (candidate : FunctionSig) : Nat × Option FunctionSig :=
  let priority := getPriorityOfSignature parameterTypes candidate.params
  if priority < best.1 then (priority, some candidate) else best

/-- The overload-resolution block of assignStatementDataType (case FUNCTION):
unknown name is fatal, then the candidate minimizing the packed key is
selected, and a best key not below 0xff000000 is fatal. -/
def selectOverload (parameterTypes : List DT) (functions : List FunctionSig) :
    Except Err FunctionSig :=
  if functions.isEmpty then
    .error (.compileError ("Unknown function name"))
  else
    let best := functions.foldl (overloadStep parameterTypes)
      (0xff000000, (none : Option FunctionSig))
    if best.1 < 0xff000000 then
      match best.2 with
      | some f => .ok f
      | none => .error .invalidInput
    else
      .error (.compileError
        ("No appropriate function overload found, the number or types of parameters passed are wrong"))

/-- Two's-complement wrap to the int64 range, the value semantics of the
64-bit arithmetic in tryReplaceConstants. -/
def wrap64 (x : Int) : Int := ((x + 2 ^ 63) % 2 ^ 64) - 2 ^ 63

/-- Outcome of tryReplaceConstants: an immediately evaluated constant, the
"false" return (defer to a binary-operation node), or an evaluation the C++
abstract machine leaves undefined. -/
inductive FoldResult where
  | folded (value : Int)
  | notFolded
  | undefined
deriving DecidableEq, Repr

/-- tryReplaceConstants: compile-time folding of the two ConstantToken
operands.  Division and modulo truncate toward zero as in C++; division by
zero is guarded and yields 0, but modulo has no such guard, so a zero right
operand runs `constLeft.mValue % 0`, which is undefined behavior (a hardware
trap on every mainstream target).  Shifts take the count modulo 64 (the
behavior of 64-bit shifts on the targets this code ships on), shift-left
wraps in 64 bits and shift-right is arithmetic. -/
def tryReplaceConstants (constLeft constRight : Int) (op : Operator) : FoldResult :=
  match op with
  | .BINARY_PLUS => .folded (wrap64 (constLeft + constRight))
  | .BINARY_MINUS => .folded (wrap64 (constLeft - constRight))
  | .BINARY_MULTIPLY => .folded (wrap64 (constLeft * constRight))
  | .BINARY_DIVIDE =>
    .folded (if constRight = 0 then 0 else wrap64 (constLeft.tdiv constRight))
  | .BINARY_MODULO =>
    if constRight = 0 then .undefined
    else .folded (wrap64 (constLeft.tmod constRight))
  | .BINARY_SHIFT_LEFT =>
    .folded (wrap64 (constLeft * 2 ^ (constRight % 64).toNat))
  | .BINARY_SHIFT_RIGHT =>
    .folded ((wrap64 constLeft).fdiv (2 ^ (constRight % 64).toNat))
  | _ => .notFolded

/-- Operator categories distinguished by the type-assignment pass
(getOperatorType). -/
inductive OperatorType where
  | ASSIGNMENT | SYMMETRIC | COMPARISON | TRINARY | UNKNOWN
deriving DecidableEq, Repr

/-- getOperatorType from TokenProcessing.cpp. -/
def getOperatorType (op : Operator) : OperatorType :=
  match op with
  | .ASSIGN | .ASSIGN_PLUS | .ASSIGN_MINUS | .ASSIGN_MULTIPLY | .ASSIGN_DIVIDE
  | .ASSIGN_MODULO | .ASSIGN_SHIFT_LEFT | .ASSIGN_SHIFT_RIGHT | .ASSIGN_AND
  | .ASSIGN_OR | .ASSIGN_XOR => .ASSIGNMENT
  | .BINARY_PLUS | .BINARY_MINUS | .BINARY_MULTIPLY | .BINARY_DIVIDE
  | .BINARY_MODULO | .BINARY_SHIFT_LEFT | .BINARY_SHIFT_RIGHT | .BINARY_AND
  | .BINARY_OR | .BINARY_XOR | .LOGICAL_AND | .LOGICAL_OR | .COLON => .SYMMETRIC
  | .COMPARE_EQUAL | .COMPARE_NOT_EQUAL | .COMPARE_LESS | .COMPARE_LESS_OR_EQUAL
  | .COMPARE_GREATER | .COMPARE_GREATER_OR_EQUAL => .COMPARISON
  | .QUESTIONMARK => .TRINARY
  | _ => .UNKNOWN

/-- BinaryOperatorSignature: left / right operand types and result type. -/
structure BinaryOperatorSignature where
  left : DT
  right : DT
  result : DT
deriving DecidableEq, Repr

/-- The symmetric signature table (also used for assignments). -/
def signaturesSymmetric : List BinaryOperatorSignature :=
  [⟨PredefinedDataTypes.INT_64, PredefinedDataTypes.INT_64, PredefinedDataTypes.INT_64⟩,
   ⟨PredefinedDataTypes.UINT_64, PredefinedDataTypes.UINT_64, PredefinedDataTypes.UINT_64⟩,
   ⟨PredefinedDataTypes.INT_32, PredefinedDataTypes.INT_32, PredefinedDataTypes.INT_32⟩,
   ⟨PredefinedDataTypes.UINT_32, PredefinedDataTypes.UINT_32, PredefinedDataTypes.UINT_32⟩,
   ⟨PredefinedDataTypes.INT_16, PredefinedDataTypes.INT_16, PredefinedDataTypes.INT_16⟩,
   ⟨PredefinedDataTypes.UINT_16, PredefinedDataTypes.UINT_16, PredefinedDataTypes.UINT_16⟩,
   ⟨PredefinedDataTypes.INT_8, PredefinedDataTypes.INT_8, PredefinedDataTypes.INT_8⟩,
   ⟨PredefinedDataTypes.UINT_8, PredefinedDataTypes.UINT_8, PredefinedDataTypes.UINT_8⟩]

/-- The comparison signature table (results are always bool). -/
def signaturesComparison : List BinaryOperatorSignature :=
  [⟨PredefinedDataTypes.INT_64, PredefinedDataTypes.INT_64, PredefinedDataTypes.BOOL⟩,
   ⟨PredefinedDataTypes.UINT_64, PredefinedDataTypes.UINT_64, PredefinedDataTypes.BOOL⟩,
   ⟨PredefinedDataTypes.INT_32, PredefinedDataTypes.INT_32, PredefinedDataTypes.BOOL⟩,
   ⟨PredefinedDataTypes.UINT_32, PredefinedDataTypes.UINT_32, PredefinedDataTypes.BOOL⟩,
   ⟨PredefinedDataTypes.INT_16, PredefinedDataTypes.INT_16, PredefinedDataTypes.BOOL⟩,
   ⟨PredefinedDataTypes.UINT_16, PredefinedDataTypes.UINT_16, PredefinedDataTypes.BOOL⟩,
   ⟨PredefinedDataTypes.INT_8, PredefinedDataTypes.INT_8, PredefinedDataTypes.BOOL⟩,
   ⟨PredefinedDataTypes.UINT_8, PredefinedDataTypes.UINT_8, PredefinedDataTypes.BOOL⟩]

/-- The ternary signature table (bool condition on the left slot). -/
def signaturesTrinary : List BinaryOperatorSignature :=
  [⟨PredefinedDataTypes.BOOL, PredefinedDataTypes.INT_64, PredefinedDataTypes.INT_64⟩,
   ⟨PredefinedDataTypes.BOOL, PredefinedDataTypes.UINT_64, PredefinedDataTypes.UINT_64⟩,
   ⟨PredefinedDataTypes.BOOL, PredefinedDataTypes.INT_32, PredefinedDataTypes.INT_32⟩,
   ⟨PredefinedDataTypes.BOOL, PredefinedDataTypes.UINT_32, PredefinedDataTypes.UINT_32⟩,
   ⟨PredefinedDataTypes.BOOL, PredefinedDataTypes.INT_16, PredefinedDataTypes.INT_16⟩,
   ⟨PredefinedDataTypes.BOOL, PredefinedDataTypes.UINT_16, PredefinedDataTypes.UINT_16⟩,
   ⟨PredefinedDataTypes.BOOL, PredefinedDataTypes.INT_8, PredefinedDataTypes.INT_8⟩,
   ⟨PredefinedDataTypes.BOOL, PredefinedDataTypes.UINT_8, PredefinedDataTypes.UINT_8⟩]

/-- getPriorityOfSignature (binary-operator version): the two cast
priorities packed with the larger one in the high byte. -/
def getPriorityOfSignaturePair (signature : BinaryOperatorSignature)
    (left right : DT) : Nat :=
  let prioLeft := getImplicitCastPriority left signature.left
  let prioRight := getImplicitCastPriority right signature.right
  if prioLeft < prioRight then (prioRight <<< 8) + prioLeft
  else (prioLeft <<< 8) + prioRight

/-- The selection loop of getBestSignature over one signature table. -/
def bestSignatureIn (signatures : List BinaryOperatorSignature)
    (exactMatchLeftRequired : Bool) (left right : DT) :
    Option BinaryOperatorSignature :=
  let best := signatures.foldl
    (fun (best : Nat × Option BinaryOperatorSignature) signature =>
      if exactMatchLeftRequired && signature.left ≠ left then best
      else
        let priority := getPriorityOfSignaturePair signature left right
        if priority < best.1 then (priority, some signature) else best)
    (0xff00, none)
  if best.1 < 0xff00 then best.2 else none

/-- getBestSignature: table and exact-left requirement chosen by operator
category; none models the "false" return (no signature below 0xff00). -/
def getBestSignature (op : Operator) (left right : DT) :
    Except Err (Option BinaryOperatorSignature) :=
  match getOperatorType op with
  | .ASSIGNMENT => .ok (bestSignatureIn signaturesSymmetric true left right)
  | .SYMMETRIC => .ok (bestSignatureIn signaturesSymmetric false left right)
  | .COMPARISON => .ok (bestSignatureIn signaturesComparison false left right)
  | .TRINARY => .ok (bestSignatureIn signaturesTrinary false left right)
  | .UNKNOWN => .error (.compileError ("Unknown operator type"))

/-- operatorCharacters table. -/
def operatorCharacters : Operator → String
  | .ASSIGN => "=" | .ASSIGN_PLUS => "+=" | .ASSIGN_MINUS => "-="
  | .ASSIGN_MULTIPLY => "*=" | .ASSIGN_DIVIDE => "/=" | .ASSIGN_MODULO => "%="
  | .ASSIGN_SHIFT_LEFT => "<<=" | .ASSIGN_SHIFT_RIGHT => ">>="
  | .ASSIGN_AND => "&=" | .ASSIGN_OR => "|=" | .ASSIGN_XOR => "^="
  | .BINARY_PLUS => "+" | .BINARY_MINUS => "-" | .BINARY_MULTIPLY => "*"
  | .BINARY_DIVIDE => "/" | .BINARY_MODULO => "%"
  | .BINARY_SHIFT_LEFT => "<<" | .BINARY_SHIFT_RIGHT => ">>"
  | .BINARY_AND => "&" | .BINARY_OR => "|" | .BINARY_XOR => "^"
  | .LOGICAL_AND => "&&" | .LOGICAL_OR => "||"
  | .UNARY_NOT => "" | .UNARY_BITNOT => ""
  | .UNARY_DECREMENT => "-" | .UNARY_INCREMENT => "+"
  | .COMPARE_EQUAL => "==" | .COMPARE_NOT_EQUAL => "!="
  | .COMPARE_LESS => "<" | .COMPARE_LESS_OR_EQUAL => "<="
  | .COMPARE_GREATER => ">" | .COMPARE_GREATER_OR_EQUAL => ">="
  | .QUESTIONMARK => "?" | .COLON => ":"
  | .SEMICOLON_SEPARATOR => ";" | .COMMA_SEPARATOR => ","
  | .PARENTHESIS_LEFT => "(" | .PARENTHESIS_RIGHT => ")"
  | .BRACKET_LEFT => "[" | .BRACKET_RIGHT => "]"

/-- getOperatorNotAllowedErrorMessage, including the dedicated semicolon
message "Semicolon ; is only allowed in for-loops". -/
def getOperatorNotAllowedErrorMessage (op : Operator) : String :=
  if 23 ≤ op.idx ∧ op.idx ≤ 26 then
    "Unary operator " ++ operatorCharacters op ++ " is not allowed here"
  else if op.idx ≤ 34 then
    "Binary operator " ++ operatorCharacters op ++ " is not allowed here"
  else
    match op with
    | .SEMICOLON_SEPARATOR => "Semicolon ; is only allowed in for-loops"
    | .COMMA_SEPARATOR => "Comma , is not allowed here"
    | .PARENTHESIS_LEFT => "Parenthesis ( is not allowed here"
    | .PARENTHESIS_RIGHT => "Parenthesis ) is not allowed here"
    | .BRACKET_LEFT => "Bracket [ is not allowed here"
    | .BRACKET_RIGHT => "Bracket ] is not allowed here"
    | _ => "Operator is not allowed here"

/-- Parenthesis group kinds. -/
inductive ParenthesisType where
  | PARENTHESIS | BRACKET
deriving DecidableEq, Repr

/-- Keywords, reduced to the one the pipeline inspects. -/
inductive Keyword where
  | FUNCTION | OTHER
deriving DecidableEq, Repr

/-- The token node variants of the pipeline (TokenTypes.h): raw lexical
tokens plus the structured statement nodes the passes create.  Assigned
data types (mDataType) that are derivable are returned by the
type-assignment function rather than stored; the fields that the source
sets at node creation (constant values and types, memory-access type,
cast target type, function resolution results) are stored. -/
inductive Token where
  | identifier (name : String)
  | keyword (kw : Keyword)
  | operatorTok (op : Operator)
  | constantTok (value : Int) (dataType : DT)
  | varTypeTok (dataType : DT)
  | parenthesisTok (ptype : ParenthesisType) (content : List Token)
  | commaListTok (content : List (List Token))
  | variableTok (name : String) (varType : DT)
  | functionTok (name : String) (parenContent : List Token)
      (isBaseCall : Bool) (resolved : Option FunctionSig)
  | memoryAccessTok (dataType : DT) (address : Token)
  | unaryOperationTok (op : Operator) (argument : Token)
  | binaryOperationTok (op : Operator) (left : Token) (right : Token)
  | valueCastTok (dataType : DT) (argument : Token)
deriving Repr

/-- Modelled from the spec: Token::isStatement (TokenTypes.h) — a token is a
statement iff it is a value-producing expression node: Constant, Variable,
Function call, Memory access, Parenthesis group, Unary/Binary operation, or
Value cast. -/
def Token.isStatement : Token → Bool
  | .constantTok _ _ => true
  | .variableTok _ _ => true
  | .functionTok _ _ _ _ => true
  | .memoryAccessTok _ _ => true
  | .parenthesisTok _ _ => true
  | .unaryOperationTok _ _ => true
  | .binaryOperationTok _ _ _ => true
  | .valueCastTok _ _ => true
  | _ => false

/-- The loop of processDefines.  The C++ erases the identifier and inserts
the define's content at the same position (take i ++ content ++ drop (i+1)),
then continues with ++i: the first spliced token is never revisited, while
later spliced tokens are.  A self-referential define makes the C++ loop run
(and grow the list) without bound, hence the explicit fuel. -/
def processDefinesLoop (getDefineByName : String → Option (List Token)) :
    Nat → List Token → Nat → List Token
  | 0, tokens, _ => tokens
  | fuel + 1, tokens, i =>
    if i < tokens.length then
      match tokens[i]? with
      | some (.identifier name) =>
        match getDefineByName name with
        | some content =>
          processDefinesLoop getDefineByName fuel
            (tokens.take i ++ content ++ tokens.drop (i + 1)) (i + 1)
        | none => processDefinesLoop getDefineByName fuel tokens (i + 1)
      | _ => processDefinesLoop getDefineByName fuel tokens (i + 1)
    else
      tokens

/-- processDefines: one in-place substitution scan over the token list. -/
def processDefines (getDefineByName : String → Option (List Token))
    (fuel : Nat) (tokens : List Token) : List Token :=
  processDefinesLoop getDefineByName fuel tokens 0

/-- Comma-separator test used by processCommaSeparators. -/
def isCommaSeparatorTok : Token → Bool
  | .operatorTok .COMMA_SEPARATOR => true
  | _ => false

/-- Net effect of the moveFrom loop in processCommaSeparators: the unit is
cut at each comma position, commas removed; empty items are produced for
adjacent commas and for leading/trailing commas. -/
def splitAtCommas : List Token → List (List Token)
  | [] => [[]]
  | t :: rest =>
    let ps := splitAtCommas rest
    if isCommaSeparatorTok t then [] :: ps
    else (t :: ps.headD []) :: ps.tail

/-- processCommaSeparators, for one unit: with no comma the unit is left
unchanged (and no new units arise); otherwise the unit becomes the single
CommaSeparatedList token and each item is inserted into the worklist right
after the current unit, in order (the second component). -/
def processCommaSeparatorsUnit (tokens : List Token) :
    List Token × List (List Token) :=
  if tokens.any isCommaSeparatorTok then
    let pieces := splitAtCommas tokens
    ([.commaListTok pieces], pieces)
  else
    (tokens, [])

/-- size_t subtraction `n - 1`: wraps to 2^64 - 1 when n = 0, which is how
the loop bounds of the recognition passes behave on an empty token list
(the literal is 2^64). -/
def sizeTSubOne (n : Nat) : Nat :=
  (n + 18446744073709551616 - 1) % 18446744073709551616

/-- Loop of processFunctionCalls: identifier followed by a round parenthesis
group collapses into a FunctionToken after the name check; the loop bound
`i < tokens.size() - 1` is computed in size_t, so an empty list makes the
first iteration read index 0, out of bounds. -/
def processFunctionCallsLoop (getFunctionsByName : String → List FunctionSig) :
    Nat → List Token → Nat → Except Err (List Token)
  | 0, _, _ => .error .outOfFuel
  | fuel + 1, tokens, i =>
    if i < sizeTSubOne tokens.length then
      match tokens[i]?, tokens[i + 1]? with
      | some (.identifier functionName), some (.parenthesisTok ptype content) =>
        if ptype = .PARENTHESIS then
          if (getFunctionsByName functionName).isEmpty
              && !(functionName.startsWith ("base.")) then
            .error (.compileError ("Unknown function name"))
          else
            processFunctionCallsLoop getFunctionsByName fuel
              (tokens.take i ++ [.functionTok functionName content false none]
                ++ tokens.drop (i + 2)) (i + 1)
        else
          processFunctionCallsLoop getFunctionsByName fuel tokens (i + 1)
      | some _, some _ =>
        processFunctionCallsLoop getFunctionsByName fuel tokens (i + 1)
      | _, _ => .error .outOfBounds
    else
      .ok tokens

/-- processFunctionCalls over a unit. -/
def processFunctionCalls (getFunctionsByName : String → List FunctionSig)
    (tokens : List Token) : Except Err (List Token) :=
  processFunctionCallsLoop getFunctionsByName (tokens.length + 1) tokens 0

/-- Loop of processMemoryAccesses: VarType followed by a bracket group whose
content is exactly one statement token collapses into a MemoryAccessToken
(data type from the VarType, address from the single inner statement);
other bracket contents are fatal.  Same wrapping size_t loop bound. -/
def processMemoryAccessesLoop :
    Nat → List Token → Nat → Except Err (List Token)
  | 0, _, _ => .error .outOfFuel
  | fuel + 1, tokens, i =>
    if i < sizeTSubOne tokens.length then
      match tokens[i]?, tokens[i + 1]? with
      | some (.varTypeTok dataType), some (.parenthesisTok ptype content) =>
        if ptype = .BRACKET then
          match content with
          | [inner] =>
            if inner.isStatement then
              processMemoryAccessesLoop fuel
                (tokens.take i ++ [.memoryAccessTok dataType inner]
                  ++ tokens.drop (i + 2)) (i + 1)
            else
              .error (.compileError ("Expected statement token inside brackets"))
          | _ => .error (.compileError ("Expected exactly one token inside brackets"))
        else
          processMemoryAccessesLoop fuel tokens (i + 1)
      | some _, some _ => processMemoryAccessesLoop fuel tokens (i + 1)
      | _, _ => .error .outOfBounds
    else
      .ok tokens

/-- processMemoryAccesses over a unit. -/
def processMemoryAccesses (tokens : List Token) : Except Err (List Token) :=
  processMemoryAccessesLoop (tokens.length + 1) tokens 0

/-- Loop of processExplicitCasts: VarType followed by a round parenthesis
group collapses into a ValueCastToken whose argument is the parenthesis
token.  Same wrapping size_t loop bound. -/
def processExplicitCastsLoop :
    Nat → List Token → Nat → Except Err (List Token)
  | 0, _, _ => .error .outOfFuel
  | fuel + 1, tokens, i =>
    if i < sizeTSubOne tokens.length then
      match tokens[i]?, tokens[i + 1]? with
      | some (.varTypeTok targetType), some (.parenthesisTok ptype content) =>
        if ptype = .PARENTHESIS then
          processExplicitCastsLoop fuel
            (tokens.take i
              ++ [.valueCastTok targetType (.parenthesisTok .PARENTHESIS content)]
              ++ tokens.drop (i + 2)) (i + 1)
        else
          processExplicitCastsLoop fuel tokens (i + 1)
      | some _, some _ => processExplicitCastsLoop fuel tokens (i + 1)
      | _, _ => .error .outOfBounds
    else
      .ok tokens

/-- processExplicitCasts over a unit. -/
def processExplicitCasts (tokens : List Token) : Except Err (List Token) :=
  processExplicitCastsLoop (tokens.length + 1) tokens 0

/-- First sub-pass of processUnaryOperations (left to right): a
post-positioned increment/decrement whose immediately preceding token is a
statement folds it as operand (replace at i, erase i-1, continue at i+1). -/
def processUnaryPostfixLoop : Nat → List Token → Nat → List Token
  | 0, tokens, _ => tokens
  | fuel + 1, tokens, i =>
    if i < tokens.length then
      match tokens[i]? with
      | some (.operatorTok op) =>
        if op = .UNARY_DECREMENT ∨ op = .UNARY_INCREMENT then
          if i = 0 then
            processUnaryPostfixLoop fuel tokens (i + 1)
          else
            match tokens[i - 1]? with
            | some leftToken =>
              if leftToken.isStatement then
                processUnaryPostfixLoop fuel
                  (tokens.take (i - 1) ++ [.unaryOperationTok op leftToken]
                    ++ tokens.drop (i + 1)) (i + 1)
              else
                processUnaryPostfixLoop fuel tokens (i + 1)
            | none => tokens
        else
          processUnaryPostfixLoop fuel tokens (i + 1)
      | _ => processUnaryPostfixLoop fuel tokens (i + 1)
    else
      tokens

/-- Second sub-pass of processUnaryOperations (reverse order, i counts
down).  Minus, logical-not and bitwise-not, as well as pre-positioned
increment/decrement: binary-minus at i > 0 whose left neighbor is not an
Operator token is left in place (it is a subtraction); minus/not/bitnot as
the last token is fatal; their right operand must be a statement (fatal
otherwise); pre-increment/decrement silently skip a missing or non-statement
operand.  Folding replaces the operator with a UnaryOperationToken and
erases the operand slot (take i ++ [unary] ++ drop (i+2)), then --i. -/
def processUnaryReverseLoop : Nat → List Token → Nat → Except Err (List Token)
  | 0, _, _ => .error .outOfFuel
  | fuel + 1, tokens, i =>
    match tokens[i]? with
    | some (.operatorTok op) =>
      match op with
      | .BINARY_MINUS | .UNARY_NOT | .UNARY_BITNOT =>
        if i + 1 = tokens.length then
          .error (.compileError ("Unary operator not allowed as last"))
        else
          if op = .BINARY_MINUS && decide (0 < i)
              && !(match tokens[i - 1]? with
                   | some (.operatorTok _) => true
                   | _ => false) then
            if i = 0 then .ok tokens
            else processUnaryReverseLoop fuel tokens (i - 1)
          else
            match tokens[i + 1]? with
            | some rightToken =>
              if rightToken.isStatement then
                let newTokens := tokens.take i
                  ++ [.unaryOperationTok op rightToken] ++ tokens.drop (i + 2)
                if i = 0 then .ok newTokens
                else processUnaryReverseLoop fuel newTokens (i - 1)
              else
                .error (.compileError ("Right of operator is no statement"))
            | none => .error .outOfBounds
      | .UNARY_DECREMENT | .UNARY_INCREMENT =>
        if i + 1 = tokens.length then
          if i = 0 then .ok tokens
          else processUnaryReverseLoop fuel tokens (i - 1)
        else
          match tokens[i + 1]? with
          | some rightToken =>
            if rightToken.isStatement then
              let newTokens := tokens.take i
                ++ [.unaryOperationTok op rightToken] ++ tokens.drop (i + 2)
              if i = 0 then .ok newTokens
              else processUnaryReverseLoop fuel newTokens (i - 1)
            else
              if i = 0 then .ok tokens
              else processUnaryReverseLoop fuel tokens (i - 1)
          | none => .error .outOfBounds
      | _ =>
        if i = 0 then .ok tokens
        else processUnaryReverseLoop fuel tokens (i - 1)
    | some _ =>
      if i = 0 then .ok tokens
      else processUnaryReverseLoop fuel tokens (i - 1)
    | none => .error .outOfBounds

/-- processUnaryOperations: the postfix sub-pass, then the reverse-order
sub-pass starting at the last index. -/
def processUnaryOperations (tokens : List Token) : Except Err (List Token) :=
  let afterPostfix := processUnaryPostfixLoop (tokens.length + 1) tokens 0
  if afterPostfix.isEmpty then .ok afterPostfix
  else processUnaryReverseLoop afterPostfix.length afterPostfix
    (afterPostfix.length - 1)

/-- The `getType() == OPERATOR` test plus `as<OperatorToken>().mOperator`
cast: the operator carried by a raw Operator token. -/
def getOperatorOf : Token → Option Operator
  | .operatorTok op => some op
  | _ => none

/-- The operator-search scan of processBinaryOperations: every raw Operator
must be interior (`i > 0 && i < tokens.size()-1`) and must not be the
semicolon; then the scan keeps the operator with the smallest mapped
priority, where an exact priority tie is decided by the associativity table
(right-to-left priorities replace the held best, left-to-right keep it).
State starts at (0xff, 0); position 0 can never hold a selectable operator,
so a final position 0 means "no operator". -/
def scanOps (n : Nat) : List Token → Nat → Nat × Nat → Except Err (Nat × Nat)
  | [], _, best => .ok best
  | t :: rest, i, best =>
    match getOperatorOf t with
    | some op =>
      if (0 < i ∧ i < n - 1) ∧ op ≠ .SEMICOLON_SEPARATOR then
        let priority := operatorPriorityLookup op
        let isLower :=
          if priority = best.1 then operatorAssociativityLookup priority
          else decide (priority < best.1)
        scanOps n rest (i + 1) (if isLower then (priority, i) else best)
      else
        .error (.compileError (getOperatorNotAllowedErrorMessage op))
    | none => scanOps n rest (i + 1) best

/-- findBestOperator: the scan over the whole unit. -/
def findBestOperator (tokens : List Token) : Except Err (Nat × Nat) :=
  scanOps tokens.length tokens 0 (0xff, 0)

/-- One round of processBinaryOperations: find the best operator (position 0
means done), check both neighbors are statements, attempt constant folding
when both neighbors are ConstantTokens (the new ConstantToken keeps the left
operand's data type), otherwise build a BinaryOperationToken; then erase the
two operand slots. -/
def binaryOpRound (tokens : List Token) : Except Err (Option (List Token)) :=
  match findBestOperator tokens with
  | .error e => .error e
  | .ok best =>
    if best.2 = 0 then .ok none
    else
      match tokens[best.2]?, tokens[best.2 - 1]?, tokens[best.2 + 1]? with
      | some (.operatorTok op), some leftToken, some rightToken =>
        if !leftToken.isStatement then
          .error (.compileError ("Left of operator is no statement"))
        else if !rightToken.isStatement then
          .error (.compileError ("Right of operator is no statement"))
        else
          let folded : Except Err (Option Token) :=
            match leftToken, rightToken with
            | .constantTok lv ld, .constantTok rv _ =>
              match tryReplaceConstants lv rv op with
              | .folded v => .ok (some (.constantTok v ld))
              | .notFolded => .ok none
              | .undefined => .error .undefinedBehavior
            | _, _ => .ok none
          match folded with
          | .error e => .error e
          | .ok replacement =>
            let newTok := match replacement with
              | some c => c
              | none => Token.binaryOperationTok op leftToken rightToken
            .ok (some (tokens.take (best.2 - 1) ++ [newTok]
              ++ tokens.drop (best.2 + 2)))
      | _, _, _ => .error .outOfBounds

/-- The outer loop of processBinaryOperations: rounds until no operator
remains. -/
def processBinaryOperationsLoop : Nat → List Token → Except Err (List Token)
  | 0, _ => .error .outOfFuel
  | fuel + 1, tokens =>
    match binaryOpRound tokens with
    | .error e => .error e
    | .ok none => .ok tokens
    | .ok (some newTokens) => processBinaryOperationsLoop fuel newTokens

/-- processBinaryOperations over a unit (each round shortens the unit by
two tokens, so length + 1 rounds always suffice). -/
def processBinaryOperations (tokens : List Token) : Except Err (List Token) :=
  processBinaryOperationsLoop (tokens.length + 1) tokens

/-- The compilation context consumed by the type-assignment pass: the
globals lookup for functions by name and the enclosing function (its name
and signature, used for base-call recognition). -/
structure CompileContext where
  getFunctionsByName : String → List FunctionSig
  currentFunction : FunctionSig

/-- mClass == INTEGER test. -/
def DT.isIntegerClass : DT → Bool
  | .integer _ => true
  | .void => false

/-- mBytes of a DataTypeDefinition (0 for void). -/
def DT.dtBytes : DT → Nat
  | .integer i => i.bytes
  | .void => 0

/-- Rebuilding a function token's parenthesis content after its parameter
statements were retyped in place. -/
def rebuildParenContent (parenContent : List Token) (newParams : List Token) :
    List Token :=
  match parenContent with
  | (.commaListTok _) :: rest => .commaListTok (newParams.map fun t => [t]) :: rest
  | _ :: _ => newParams
  | [] => []

/-- assignStatementDataType: the recursive bottom-up typing pass with an
optional top-down expected type, case for case from the C++ switch.  The
result pairs the updated token with its resolved data type (the C++ returns
token.mDataType after mutating the tree in place).  The fuel only pads the
recursion; the input trees are finite, and every theorem below supplies
enough fuel. -/
def assignStatementDataType (ctx : CompileContext) :
    Nat → Token → Option DT → Except Err (Token × DT)
  | 0, _, _ => .error .outOfFuel
  | fuel + 1, token, resultType =>
    match token with
    | .constantTok value _ =>
      let dt := resultType.getD PredefinedDataTypes.CONST_INT
      .ok (.constantTok value dt, dt)
    | .variableTok name varType =>
      .ok (.variableTok name varType, varType)
    | .functionTok functionName parenContent _ _ =>
      let parameterTokens : Except Err (List Token) :=
        match parenContent with
        | [] => .ok []
        | (.commaListTok lists) :: _ =>
          lists.mapM fun l =>
            match l with
            | [t] =>
              if t.isStatement then .ok t
              else .error (.compileError ("Function parameter content must be a statement"))
            | _ => .error (.compileError ("Function parameter content must be one token"))
        | first :: rest =>
          if rest.isEmpty then
            if first.isStatement then .ok [first]
            else .error (.compileError ("Function parameter content must be a statement"))
          else
            .error (.compileError ("Function parameter content must be one token"))
      match parameterTokens with
      | .error e => .error e
      | .ok paramToks =>
        match paramToks.mapM (fun t => assignStatementDataType ctx fuel t none) with
        | .error e => .error e
        | .ok results =>
          let parameterTypes := results.map Prod.snd
          let newParamToks := results.map Prod.fst
          if functionName.startsWith ("base.")
              && (functionName.drop 5 == ctx.currentFunction.name) then
            -- base call: must repeat the enclosing function's signature
            if parameterTypes.length ≠ ctx.currentFunction.params.length then
              .error (.compileError ("Base function call has different parameter count"))
            else if parameterTypes ≠ ctx.currentFunction.params then
              .error (.compileError ("Base function call has different parameter"))
            else
              .ok (.functionTok functionName
                    (rebuildParenContent parenContent newParamToks) true
                    (some ctx.currentFunction),
                  ctx.currentFunction.returnType)
          else
            match selectOverload parameterTypes
                (ctx.getFunctionsByName functionName) with
            | .error e => .error e
            | .ok f =>
              .ok (.functionTok functionName
                    (rebuildParenContent parenContent newParamToks) false (some f),
                  f.returnType)
    | .memoryAccessTok dataType address =>
      -- the address is typed with UINT_32 as the expected type; the
      -- memory-access token keeps the data type set at its creation
      match assignStatementDataType ctx fuel address
          (some PredefinedDataTypes.UINT_32) with
      | .error e => .error e
      | .ok (newAddress, _) => .ok (.memoryAccessTok dataType newAddress, dataType)
    | .parenthesisTok ptype content =>
      match content with
      | [inner] =>
        if inner.isStatement then
          match assignStatementDataType ctx fuel inner resultType with
          | .error e => .error e
          | .ok (newInner, dt) => .ok (.parenthesisTok ptype [newInner], dt)
        else .error (.compileError ("Parenthesis content must be a statement"))
      | _ => .error (.compileError ("Parenthesis content must be one token"))
    | .unaryOperationTok op argument =>
      match assignStatementDataType ctx fuel argument resultType with
      | .error e => .error e
      | .ok (newArg, dt) => .ok (.unaryOperationTok op newArg, dt)
    | .binaryOperationTok op left right =>
      let opType := getOperatorType op
      let expectedType := if opType = .SYMMETRIC then resultType else none
      match assignStatementDataType ctx fuel left expectedType with
      | .error e => .error e
      | .ok (newLeft, leftDataType) =>
        match assignStatementDataType ctx fuel right
            (if opType = .ASSIGNMENT then some leftDataType else expectedType) with
        | .error e => .error e
        | .ok (newRight, rightDataType) =>
          match getBestSignature op leftDataType rightDataType with
          | .error e => .error e
          | .ok none =>
            .error (.compileError ("Can not implicitly cast between types"))
          | .ok (some signature) =>
            let finalLeft :=
              if opType ≠ .TRINARY
                  && leftDataType.isIntegerClass && rightDataType.isIntegerClass
                  && leftDataType.dtBytes ≠ signature.left.dtBytes then
                Token.valueCastTok signature.left newLeft
              else newLeft
            let finalRight :=
              if opType ≠ .TRINARY
                  && leftDataType.isIntegerClass && rightDataType.isIntegerClass
                  && rightDataType.dtBytes ≠ signature.right.dtBytes then
                Token.valueCastTok signature.right newRight
              else newRight
            .ok (.binaryOperationTok op finalLeft finalRight, signature.result)
    | .valueCastTok dataType argument =>
      match assignStatementDataType ctx fuel argument (some dataType) with
      | .error e => .error e
      | .ok (newArg, argType) =>
        if getImplicitCastPriority argType dataType ≠ 0xff then
          .ok (.valueCastTok dataType newArg, dataType)
        else
          .error (.compileError ("Explicit cast not possible"))
    | _ =>
      -- assignStatementDataType is only ever invoked on statement tokens
      .error .invalidInput

/-- The maximum of a Nat list (0 when empty). -/
def maxList (l : List Nat) : Nat := l.foldr max 0

/-- A concrete define registry: D1 expands to `7 D2`, D2 expands to `9`. -/
def defineLookupC5 : String → Option (List Token) :=
  fun n =>
    if n = "D1" then
      some [.constantTok 7 PredefinedDataTypes.CONST_INT, .identifier ("D2")]
    else if n = "D2" then
      some [.constantTok 9 PredefinedDataTypes.CONST_INT]
    else
      none

/-- A concrete compilation context with one registered function
`foo : () -> void`. -/
def voidFunctionContext : CompileContext :=
  ⟨fun n => if n = "foo" then [⟨"foo", [], PredefinedDataTypes.VOID⟩] else [],
   ⟨"main", [], PredefinedDataTypes.VOID⟩⟩

/-- C2: getImplicitCastPriority returns exactly 0 for identical types; 1 when
source or target is a constant-class integer; for equal byte width 2 for
signed-to-unsigned and 1 otherwise; 0x10/0x20 + sizeDelta for widening,
0x30/0x40 + sizeDelta for narrowing with sizeDelta the base-2 size-class
difference; 0xff when a non-integer type is involved; and the cost ordering
constant-cast (1) < equal-width signed-to-unsigned (2) < any width-changing
cast. -/
theorem getImplicitCastPriority_spec :
    (∀ t : DT, getImplicitCastPriority t t = 0)
    ∧ (∀ o t : IntegerDT, DT.integer o ≠ DT.integer t →
        (o.semantics = Semantics.CONSTANT ∨ t.semantics = Semantics.CONSTANT) →
        getImplicitCastPriority (.integer o) (.integer t) = 1)
    ∧ (∀ o t : IntegerDT, DT.integer o ≠ DT.integer t →
        o.semantics ≠ Semantics.CONSTANT → t.semantics ≠ Semantics.CONSTANT →
        o.bytes = t.bytes →
        getImplicitCastPriority (.integer o) (.integer t)
          = if o.isSigned && !t.isSigned then 2 else 1)
    ∧ (∀ o t : IntegerDT,
        o.semantics ≠ Semantics.CONSTANT → t.semantics ≠ Semantics.CONSTANT →
        o.bytes < t.bytes →
        getImplicitCastPriority (.integer o) (.integer t)
          = (if o.isSigned && !t.isSigned then 0x20 else 0x10)
              + (baseTypeSizeClass t - baseTypeSizeClass o))
    ∧ (∀ o t : IntegerDT,
        o.semantics ≠ Semantics.CONSTANT → t.semantics ≠ Semantics.CONSTANT →
        t.bytes < o.bytes →
        (getImplicitCastPriority (.integer o) (.integer t) : Int)
          = (if o.isSigned && !t.isSigned then 0x40 else 0x30)
              + ((baseTypeSizeClass t : Int) - baseTypeSizeClass o))
    ∧ (∀ o t : DT, o ≠ t → (o = DT.void ∨ t = DT.void) →
        getImplicitCastPriority o t = 0xff)
    ∧ (∀ t : IntegerDT, t.semantics ≠ Semantics.CONSTANT →
        getImplicitCastPriority PredefinedDataTypes.CONST_INT (.integer t) = 1)
    ∧ (∀ o t : IntegerDT, o.semantics ≠ Semantics.CONSTANT →
        t.semantics ≠ Semantics.CONSTANT → o.bytes = t.bytes →
        o.isSigned = true → t.isSigned = false →
        getImplicitCastPriority (.integer o) (.integer t) = 2)
    ∧ (∀ o t : IntegerDT, o.semantics ≠ Semantics.CONSTANT →
        t.semantics ≠ Semantics.CONSTANT → o.bytes ≠ t.bytes →
        2 < getImplicitCastPriority (.integer o) (.integer t)) := by
  have hklog : ∀ i : IntegerDT, baseTypeSizeClass i ≤ 3 := by
    intro i
    unfold baseTypeSizeClass
    split <;> omega
  refine ⟨?_, ?_, ?_, ?_, ?_, ?_, ?_, ?_, ?_⟩
  · intro t
    simp [getImplicitCastPriority]
  · intro o t hne hc
    unfold getImplicitCastPriority
    rw [if_neg hne]
    rcases hc with h | h
    · simp [h]
    · by_cases ho : o.semantics = Semantics.CONSTANT <;> simp [ho, h]
  · intro o t hne hco hct hb
    unfold getImplicitCastPriority
    rw [if_neg hne]
    simp [hco, hct, hb]
  · intro o t hco hct hb
    have hbne : o.bytes ≠ t.bytes := Nat.ne_of_lt hb
    have hne : DT.integer o ≠ DT.integer t := by
      intro hh
      exact hbne (by cases hh; rfl)
    unfold getImplicitCastPriority
    rw [if_neg hne]
    simp [hco, hct, hbne, hb]
  · intro o t hco hct hb
    have hbne : o.bytes ≠ t.bytes := (Nat.ne_of_lt hb).symm
    have hne : DT.integer o ≠ DT.integer t := by
      intro hh
      exact hbne (by cases hh; rfl)
    have hlt : ¬ o.bytes < t.bytes := by omega
    have hA : baseTypeSizeClass o ≤ 3 := hklog o
    unfold getImplicitCastPriority
    rw [if_neg hne]
    simp only [hco, hct, hbne, hlt, if_neg, ite_false]
    split <;> omega
  · rintro o t hne (rfl | rfl)
    · cases t with
      | void => exact absurd rfl hne
      | integer i => simp [getImplicitCastPriority, hne]
    · cases o with
      | void => exact absurd rfl hne
      | integer i => simp [getImplicitCastPriority, hne]
  · intro t hct
    have hne : PredefinedDataTypes.CONST_INT ≠ DT.integer t := by
      intro hh
      apply hct
      have : (⟨8, true, Semantics.CONSTANT⟩ : IntegerDT) = t := by
        cases hh; rfl
      rw [← this]
    unfold getImplicitCastPriority
    rw [if_neg hne]
    simp [PredefinedDataTypes.CONST_INT]
  · intro o t hco hct hb hso hst
    have hne : DT.integer o ≠ DT.integer t := by
      intro hh
      have : o.isSigned = t.isSigned := by cases hh; rfl
      rw [hso, hst] at this
      exact Bool.true_eq_false.mp this
    unfold getImplicitCastPriority
    rw [if_neg hne]
    simp [hco, hct, hb, hso, hst]
  · intro o t hco hct hbne
    have hne : DT.integer o ≠ DT.integer t := by
      intro hh
      exact hbne (by cases hh; rfl)
    have hA : baseTypeSizeClass o ≤ 3 := hklog o
    unfold getImplicitCastPriority
    rw [if_neg hne]
    simp only [hco, hct, hbne, if_neg, ite_false]
    split <;> split <;> omega

/-- Witness for C2 at concrete registry types: a constant-literal cast costs
1, an equal-width signed-to-unsigned cast costs 2, and a width-changing cast
costs more than 2. -/
theorem getImplicitCastPriority_spec_witness :
    getImplicitCastPriority PredefinedDataTypes.CONST_INT PredefinedDataTypes.UINT_32 = 1
    ∧ getImplicitCastPriority PredefinedDataTypes.INT_32 PredefinedDataTypes.UINT_32 = 2
    ∧ 2 < getImplicitCastPriority PredefinedDataTypes.UINT_16 PredefinedDataTypes.INT_32 := by
  obtain ⟨-, -, -, -, -, -, h7, h8, h9⟩ := getImplicitCastPriority_spec
  refine ⟨h7 ⟨4, false, Semantics.DEFAULT⟩ (by decide), ?_, ?_⟩
  · exact h8 ⟨4, true, Semantics.DEFAULT⟩ ⟨4, false, Semantics.DEFAULT⟩
      (by decide) (by decide) rfl rfl rfl
  · exact h9 ⟨2, false, Semantics.DEFAULT⟩ ⟨4, true, Semantics.DEFAULT⟩
      (by decide) (by decide) (by decide)

lemma baseTypeSizeClass_le_three (i : IntegerDT) : baseTypeSizeClass i ≤ 3 := by
  unfold baseTypeSizeClass
  split <;> omega

/-- Reduction of getImplicitCastPriority on two integer-class types, stated
as plain nested ifs for convenient case splitting. -/
lemma getImplicitCastPriority_int_int (oi ti : IntegerDT) :
    getImplicitCastPriority (.integer oi) (.integer ti)
      = if (DT.integer oi) = (.integer ti) then 0
        else if oi.semantics = .CONSTANT then 1
        else if ti.semantics = .CONSTANT then 1
        else if oi.bytes = ti.bytes then
          (if oi.isSigned && !ti.isSigned then 2 else 1)
        else if oi.bytes < ti.bytes then
          (if oi.isSigned && !ti.isSigned then 0x20 else 0x10)
            + (baseTypeSizeClass ti - baseTypeSizeClass oi)
        else
          (if oi.isSigned && !ti.isSigned then 0x40 else 0x30)
            + baseTypeSizeClass ti - baseTypeSizeClass oi := by
  rfl

lemma getImplicitCastPriority_lt_256 (o t : DT) : getImplicitCastPriority o t < 256 := by
  rcases o with _ | oi <;> rcases t with _ | ti
  · simp [getImplicitCastPriority]
  · rw [show getImplicitCastPriority DT.void (.integer ti) = 0xff from by
      unfold getImplicitCastPriority
      rw [if_neg (by simp)]]
    omega
  · rw [show getImplicitCastPriority (DT.integer oi) DT.void = 0xff from by
      unfold getImplicitCastPriority
      rw [if_neg (by simp)]]
    omega
  · have hA := baseTypeSizeClass_le_three oi
    have hB := baseTypeSizeClass_le_three ti
    rw [getImplicitCastPriority_int_int]
    split
    · omega
    · split
      · omega
      · split
        · omega
        · split
          · split <;> omega
          · split
            · split <;> omega
            · split <;> omega

lemma insertDesc_headD (x : Nat) (s : List Nat) :
    (insertDesc x s).headD 0 = max x (s.headD 0) := by
  cases s with
  | nil => simp [insertDesc]
  | cons y ys =>
    by_cases h : y ≤ x
    · simp [insertDesc, h, Nat.max_eq_left h]
    · simp [insertDesc, h, Nat.max_eq_right (Nat.le_of_not_le h)]

lemma insertDesc_perm (x : Nat) (s : List Nat) :
    (insertDesc x s).Perm (x :: s) := by
  induction s with
  | nil => simp [insertDesc]
  | cons y ys ih =>
    by_cases h : y ≤ x
    · simp [insertDesc, h]
    · simp only [insertDesc, h, ite_false]
      exact ((ih.cons y).trans (List.Perm.swap x y ys))

lemma sortDescending_perm (l : List Nat) : (sortDescending l).Perm l := by
  induction l with
  | nil => simp [sortDescending]
  | cons x xs ih =>
    exact (insertDesc_perm x (sortDescending xs)).trans (ih.cons x)

lemma sortDescending_headD (l : List Nat) :
    (sortDescending l).headD 0 = maxList l := by
  induction l with
  | nil => rfl
  | cons x xs ih =>
    show (insertDesc x (sortDescending xs)).headD 0 = maxList (x :: xs)
    rw [insertDesc_headD, ih]
    rfl

lemma shiftRight_lor (a b n : Nat) : (a ||| b) >>> n = (a >>> n) ||| (b >>> n) := by
  apply Nat.eq_of_testBit_eq
  intro i
  simp [Nat.testBit_lor, Nat.testBit_shiftRight]

lemma shiftRight_eq_zero_of_lt {low n : Nat} (hl : low < 2 ^ n) : low >>> n = 0 := by
  rw [Nat.shiftRight_eq_div_pow]
  exact Nat.div_eq_of_lt hl

lemma packLoop_shiftRight (t : List Nat) : ∀ i r, 1 ≤ i → (∀ p ∈ t, p < 256) →
    (packLoop t i r) >>> 24 = r >>> 24 := by
  induction t with
  | nil => intro i r _ _; rfl
  | cons p rest ih =>
    intro i r hi hlt
    unfold packLoop
    split
    · rename_i hi4
      have hterm : p <<< (24 - i * 8) < 2 ^ 24 := by
        have h1 : p <<< (24 - i * 8) < 2 ^ (8 + (24 - i * 8)) :=
          Nat.shiftLeft_lt (hlt p (List.mem_cons_self p rest))
        refine lt_of_lt_of_le h1 (Nat.pow_le_pow_right (by norm_num) (by omega))
      rw [ih (i + 1) _ (by omega) (fun q hq => hlt q (List.mem_cons_of_mem p hq))]
      rw [shiftRight_lor, shiftRight_eq_zero_of_lt hterm]
      simp
    · rfl

lemma selectFold_spec (parameterTypes : List DT) :
    ∀ (fs : List FunctionSig) (b : Nat) (o : Option FunctionSig),
      (fs.foldl (overloadStep parameterTypes) (b, o)).1 ≤ b
      ∧ (∀ g ∈ fs,
          (fs.foldl (overloadStep parameterTypes) (b, o)).1
            ≤ getPriorityOfSignature parameterTypes g.params)
      ∧ ((fs.foldl (overloadStep parameterTypes) (b, o)) = (b, o)
         ∨ ∃ f ∈ fs,
            (fs.foldl (overloadStep parameterTypes) (b, o)).2 = some f
            ∧ (fs.foldl (overloadStep parameterTypes) (b, o)).1
                = getPriorityOfSignature parameterTypes f.params
            ∧ (fs.foldl (overloadStep parameterTypes) (b, o)).1 < b) := by
  intro fs
  induction fs with
  | nil => intro b o; exact ⟨le_refl b, by simp, Or.inl rfl⟩
  | cons c rest ih =>
    intro b o
    simp only [List.foldl_cons]
    by_cases hlt : getPriorityOfSignature parameterTypes c.params < b
    · have hstep : overloadStep parameterTypes (b, o) c
          = (getPriorityOfSignature parameterTypes c.params, some c) := by
        simp [overloadStep, hlt]
      rw [hstep]
      obtain ⟨ih1, ih2, ih3⟩ := ih (getPriorityOfSignature parameterTypes c.params) (some c)
      refine ⟨le_trans ih1 (le_of_lt hlt), ?_, ?_⟩
      · intro g hg
        rcases List.mem_cons.mp hg with rfl | hg'
        · exact ih1
        · exact ih2 g hg'
      · rcases ih3 with heq | ⟨f, hf, h2, h3, h4⟩
        · exact Or.inr ⟨c, List.mem_cons_self c rest,
            by rw [heq], by rw [heq], by rw [heq]; exact hlt⟩
        · exact Or.inr ⟨f, List.mem_cons_of_mem c hf, h2, h3, lt_trans h4 hlt⟩
    · have hstep : overloadStep parameterTypes (b, o) c = (b, o) := by
        simp [overloadStep, hlt]
      rw [hstep]
      obtain ⟨ih1, ih2, ih3⟩ := ih b o
      refine ⟨ih1, ?_, ?_⟩
      · intro g hg
        rcases List.mem_cons.mp hg with rfl | hg'
        · exact le_trans ih1 (Nat.le_of_not_lt hlt)
        · exact ih2 g hg'
      · rcases ih3 with heq | ⟨f, hf, h2, h3, h4⟩
        · exact Or.inl heq
        · exact Or.inr ⟨f, List.mem_cons_of_mem c hf, h2, h3, h4⟩

/-- C3: overload scoring packs the descending-sorted per-parameter cast
costs into a 32-bit key whose most significant byte is the highest
individual cost; parameter-count mismatch scores 0xffffffff; the candidate
with the smallest key wins; no candidate key below 0xff000000 (or an empty
candidate list) is fatal; and for overloads f(int32) and f(int64) applied
to a uint16 argument, f(int32) is selected. -/
theorem overload_resolution_spec :
    (∀ original target : List DT, original.length ≠ target.length →
        getPriorityOfSignature original target = 0xffffffff)
    ∧ (∀ original target : List DT, original.length = target.length →
        original ≠ [] →
        getPriorityOfSignature original target >>> 24
          = maxList ((List.zip original target).map
              fun p => getImplicitCastPriority p.1 p.2))
    ∧ (∀ parameterTypes functions f,
        selectOverload parameterTypes functions = .ok f →
        f ∈ functions
        ∧ getPriorityOfSignature parameterTypes f.params < 0xff000000
        ∧ ∀ g ∈ functions,
            getPriorityOfSignature parameterTypes f.params
              ≤ getPriorityOfSignature parameterTypes g.params)
    ∧ (∀ parameterTypes functions,
        (functions = []
          ∨ ∀ g ∈ functions,
              0xff000000 ≤ getPriorityOfSignature parameterTypes g.params) →
        ∃ e, selectOverload parameterTypes functions = .error e)
    ∧ (selectOverload [PredefinedDataTypes.UINT_16]
          [⟨"f", [PredefinedDataTypes.INT_32], PredefinedDataTypes.VOID⟩,
           ⟨"f", [PredefinedDataTypes.INT_64], PredefinedDataTypes.VOID⟩]
        = .ok ⟨"f", [PredefinedDataTypes.INT_32], PredefinedDataTypes.VOID⟩) := by
  refine ⟨?_, ?_, ?_, ?_, ?_⟩
  · intro original target hne
    simp [getPriorityOfSignature, hne]
  · intro original target hlen hne
    unfold getPriorityOfSignature
    rw [if_neg (by simp [hlen])]
    set costs := (List.zip original target).map
      fun p => getImplicitCastPriority p.1 p.2 with hcosts
    have hbound : ∀ p ∈ costs, p < 256 := by
      intro p hp
      rw [hcosts] at hp
      obtain ⟨q, _, rfl⟩ := List.mem_map.mp hp
      exact getImplicitCastPriority_lt_256 q.1 q.2
    have hboundS : ∀ p ∈ sortDescending costs, p < 256 := by
      intro p hp
      exact hbound p ((sortDescending_perm costs).mem_iff.mp hp)
    have hnonempty : sortDescending costs ≠ [] := by
      intro hnil
      have := (sortDescending_perm costs).length_eq
      rw [hnil] at this
      have hlenc : costs.length = original.length := by
        rw [hcosts]
        simp [List.length_zip, hlen]
      rw [this.symm] at hlenc
      have h0 : original.length = 0 := by simpa using hlenc.symm
      exact hne (List.length_eq_zero.mp h0)
    obtain ⟨h, rest, hsort⟩ := List.exists_cons_of_ne_nil hnonempty
    rw [hsort]
    show packLoop (h :: rest) 0 0 >>> 24 = maxList costs
    unfold packLoop
    rw [if_pos (by omega)]
    rw [packLoop_shiftRight rest 1 _ (le_refl 1)
      (fun q hq => hboundS q (hsort ▸ List.mem_cons_of_mem h hq))]
    have hh : h < 256 := hboundS h (hsort ▸ List.mem_cons_self h rest)
    have : ((0 : Nat) ||| h <<< (24 - 0 * 8)) = h <<< 24 := by
      simp
    rw [this, Nat.shiftLeft_shiftRight]
    have := sortDescending_headD costs
    rw [hsort] at this
    exact this
  · intro parameterTypes functions f hok
    unfold selectOverload at hok
    by_cases hemp : functions.isEmpty
    · rw [if_pos hemp] at hok
      exact absurd hok (by simp)
    · rw [if_neg hemp] at hok
      obtain ⟨h1, h2, h3⟩ := selectFold_spec parameterTypes functions 0xff000000 none
      set r := functions.foldl (overloadStep parameterTypes)
        (0xff000000, (none : Option FunctionSig)) with hr
      by_cases hb : r.1 < 0xff000000
      · rw [if_pos hb] at hok
        rcases h3 with heq | ⟨g, hg, hsome, hkey, hlt⟩
        · rw [heq] at hb
          exact absurd hb (by norm_num)
        · rw [hsome] at hok
          simp only [Except.ok.injEq] at hok
          subst hok
          exact ⟨hg, hkey ▸ hb, fun g' hg' => hkey ▸ h2 g' hg'⟩
      · rw [if_neg hb] at hok
        exact absurd hok (by simp)
  · intro parameterTypes functions hcond
    unfold selectOverload
    rcases hcond with rfl | hall
    · exact ⟨_, rfl⟩
    · by_cases hemp : functions.isEmpty
      · rw [if_pos hemp]
        exact ⟨_, rfl⟩
      · rw [if_neg hemp]
        obtain ⟨h1, h2, h3⟩ := selectFold_spec parameterTypes functions 0xff000000 none
        set r := functions.foldl (overloadStep parameterTypes)
          (0xff000000, (none : Option FunctionSig)) with hr
        have hge : ¬ r.1 < 0xff000000 := by
          rcases h3 with heq | ⟨g, hg, _, hkey, _⟩
          · rw [heq]
            norm_num
          · rw [hkey]
            exact Nat.not_lt.mpr (hall g hg)
        rw [if_neg hge]
        exact ⟨_, rfl⟩
  · rfl

/-- Witness for C3: a parameter-count mismatch scores 0xffffffff, and the
selected f(int32) overload is one of the candidates, with a key at most the
key of f(int64). -/
theorem overload_resolution_spec_witness :
    getPriorityOfSignature [PredefinedDataTypes.UINT_16] [] = 0xffffffff
    ∧ (⟨"f", [PredefinedDataTypes.INT_32], PredefinedDataTypes.VOID⟩ : FunctionSig)
        ∈ [(⟨"f", [PredefinedDataTypes.INT_32], PredefinedDataTypes.VOID⟩ : FunctionSig),
           ⟨"f", [PredefinedDataTypes.INT_64], PredefinedDataTypes.VOID⟩] := by
  obtain ⟨h1, -, h3, -, h5⟩ := overload_resolution_spec
  exact ⟨h1 _ _ (by decide), (h3 _ _ _ h5).1⟩

lemma getOperatorOf_eq_some {t : Token} {op : Operator} :
    getOperatorOf t = some op ↔ t = .operatorTok op := by
  cases t <;> simp [getOperatorOf]

/-- Invariant of the operator-search scan: a successful scan either keeps
the incoming best (and then every operator in the suffix loses to it under
the tie rule), or returns an operator of the suffix that realizes the
minimum priority, positioned first or last among the minimal ones according
to the associativity of that priority. -/
lemma scanOps_ok_spec (n : Nat) :
    ∀ (rest : List Token) (i bp bpos p pos : Nat),
      scanOps n rest i (bp, bpos) = .ok (p, pos) →
      (p = bp ∧ pos = bpos
        ∧ ∀ (j : Nat) (op' : Operator),
            rest[j]? = some (Token.operatorTok op') →
            bp < operatorPriorityLookup op'
            ∨ (operatorPriorityLookup op' = bp
               ∧ operatorAssociativityLookup bp = false))
      ∨ (∃ (k : Nat) (op' : Operator),
          rest[k]? = some (Token.operatorTok op')
          ∧ operatorPriorityLookup op' = p
          ∧ pos = i + k
          ∧ (p < bp ∨ (p = bp ∧ operatorAssociativityLookup p = true))
          ∧ (∀ (j : Nat) (op'' : Operator),
              rest[j]? = some (Token.operatorTok op'') →
              p ≤ operatorPriorityLookup op'')
          ∧ (∀ (j : Nat) (op'' : Operator),
              rest[j]? = some (Token.operatorTok op'') →
              operatorPriorityLookup op'' = p →
              (if operatorAssociativityLookup p then i + j ≤ pos
               else pos ≤ i + j))) := by
  intro rest
  induction rest with
  | nil =>
    intro i bp bpos p pos hscan
    simp only [scanOps, Except.ok.injEq, Prod.mk.injEq] at hscan
    left
    exact ⟨hscan.1.symm, hscan.2.symm, by simp⟩
  | cons t rest ih =>
    intro i bp bpos p pos hscan
    cases hop : getOperatorOf t with
    | none =>
      simp only [scanOps, hop] at hscan
      have ht : ∀ op', t ≠ Token.operatorTok op' := by
        intro op' he
        rw [he] at hop
        simp [getOperatorOf] at hop
      rcases ih (i + 1) bp bpos p pos hscan with
        ⟨ha1, ha2, ha3⟩ | ⟨k, op', hk, hprio, hpos, hcmp, hmin, htie⟩
      · left
        refine ⟨ha1, ha2, ?_⟩
        intro j op' hj
        cases j with
        | zero =>
          rw [List.getElem?_cons_zero] at hj
          exact absurd (Option.some.inj hj) (ht op')
        | succ j' =>
          rw [List.getElem?_cons_succ] at hj
          exact ha3 j' op' hj
      · right
        refine ⟨k + 1, op', by rw [List.getElem?_cons_succ]; exact hk, hprio,
          by omega, hcmp, ?_, ?_⟩
        · intro j op'' hj
          cases j with
          | zero =>
            rw [List.getElem?_cons_zero] at hj
            exact absurd (Option.some.inj hj) (ht op'')
          | succ j' =>
            rw [List.getElem?_cons_succ] at hj
            exact hmin j' op'' hj
        · intro j op'' hj hpr
          cases j with
          | zero =>
            rw [List.getElem?_cons_zero] at hj
            exact absurd (Option.some.inj hj) (ht op'')
          | succ j' =>
            rw [List.getElem?_cons_succ] at hj
            have := htie j' op'' hj hpr
            cases ha : operatorAssociativityLookup p <;>
              simp only [ha, if_true, if_false, Bool.false_eq_true] at this ⊢ <;>
              omega
    | some op =>
      simp only [scanOps, hop] at hscan
      by_cases hcheck : (0 < i ∧ i < n - 1) ∧ op ≠ Operator.SEMICOLON_SEPARATOR
      · rw [if_pos hcheck] at hscan
        have ht : t = Token.operatorTok op := getOperatorOf_eq_some.mp hop
        subst ht
        set q := operatorPriorityLookup op with hq
        by_cases hlow :
            (if q = bp then operatorAssociativityLookup q
             else decide (q < bp)) = true
        · rw [if_pos hlow] at hscan
          have hlow' : q < bp ∨ (q = bp ∧ operatorAssociativityLookup q = true) := by
            by_cases hqbp : q = bp
            · rw [if_pos hqbp] at hlow
              exact Or.inr ⟨hqbp, hlow⟩
            · rw [if_neg hqbp] at hlow
              exact Or.inl (of_decide_eq_true hlow)
          rcases ih (i + 1) q i p pos hscan with
            ⟨ha1, ha2, ha3⟩ | ⟨k, op', hk, hprio, hpos, hcmp, hmin, htie⟩
          · -- the head operator is the final best
            right
            refine ⟨0, op, by rw [List.getElem?_cons_zero], ha1 ▸ hq.symm ▸ rfl,
              by omega, ?_, ?_, ?_⟩
            · rcases hlow' with h | ⟨h1, h2⟩
              · exact Or.inl (by omega)
              · exact Or.inr ⟨by omega, by rw [ha1]; exact h1 ▸ h2⟩
            · intro j op'' hj
              cases j with
              | zero =>
                rw [List.getElem?_cons_zero] at hj
                have : op'' = op := by
                  have := Option.some.inj hj
                  cases this
                  rfl
                subst this
                omega
              | succ j' =>
                rw [List.getElem?_cons_succ] at hj
                rcases ha3 j' op'' hj with h | ⟨h1, _⟩
                · omega
                · omega
            · intro j op'' hj hpr
              cases j with
              | zero =>
                cases ha : operatorAssociativityLookup p <;> simp [ha] <;> omega
              | succ j' =>
                rw [List.getElem?_cons_succ] at hj
                rcases ha3 j' op'' hj with h | ⟨h1, h2⟩
                · omega
                · -- op'' has priority q = p and associativity of q is false
                  have hpq : p = q := by omega
                  cases ha : operatorAssociativityLookup p with
                  | false => simp only [ha, if_false, Bool.false_eq_true]; omega
                  | true =>
                    rw [hpq] at ha
                    rw [ha] at h2
                    exact absurd h2 (by simp)
          · -- a later operator replaced the head
            right
            have hcmp' : p < bp ∨ (p = bp ∧ operatorAssociativityLookup p = true) := by
              rcases hcmp with h | ⟨h1, h2⟩
              · rcases hlow' with h' | ⟨h1', _⟩
                · exact Or.inl (by omega)
                · exact Or.inl (by omega)
              · rcases hlow' with h' | ⟨h1', h2'⟩
                · exact Or.inl (by omega)
                · exact Or.inr ⟨by omega, h2⟩
            refine ⟨k + 1, op', by rw [List.getElem?_cons_succ]; exact hk, hprio,
              by omega, hcmp', ?_, ?_⟩
            · intro j op'' hj
              cases j with
              | zero =>
                rw [List.getElem?_cons_zero] at hj
                have : op'' = op := by
                  have := Option.some.inj hj
                  cases this
                  rfl
                subst this
                rcases hcmp with h | ⟨h1, _⟩
                · omega
                · omega
              | succ j' =>
                rw [List.getElem?_cons_succ] at hj
                exact hmin j' op'' hj
            · intro j op'' hj hpr
              cases j with
              | zero =>
                rw [List.getElem?_cons_zero] at hj
                have hop'' : op'' = op := by
                  have := Option.some.inj hj
                  cases this
                  rfl
                subst hop''
                -- priority of the head equals the final p, so p = q and the
                -- final best came from a later tie win: associativity is true
                have hpq : p = q := by omega
                have hassoc : operatorAssociativityLookup p = true := by
                  rcases hcmp with h | ⟨_, h2⟩
                  · omega
                  · exact h2
                rw [hassoc]
                simp only [if_true]
                omega
              | succ j' =>
                rw [List.getElem?_cons_succ] at hj
                have := htie j' op'' hj hpr
                cases ha : operatorAssociativityLookup p <;>
                  simp only [ha, if_true, if_false, Bool.false_eq_true] at this ⊢ <;>
                  omega
        · rw [if_neg hlow] at hscan
          have hkeep : bp < q ∨ (q = bp ∧ operatorAssociativityLookup q = false) := by
            by_cases hqbp : q = bp
            · rw [if_pos hqbp] at hlow
              cases hb : operatorAssociativityLookup q with
              | true => exact absurd hb hlow
              | false => exact Or.inr ⟨hqbp, rfl⟩
            · rw [if_neg hqbp] at hlow
              have : ¬ q < bp := fun hc => hlow (decide_eq_true hc)
              exact Or.inl (by omega)
          rcases ih (i + 1) bp bpos p pos hscan with
            ⟨ha1, ha2, ha3⟩ | ⟨k, op', hk, hprio, hpos, hcmp, hmin, htie⟩
          · left
            refine ⟨ha1, ha2, ?_⟩
            intro j op'' hj
            cases j with
            | zero =>
              rw [List.getElem?_cons_zero] at hj
              have : op'' = op := by
                have := Option.some.inj hj
                cases this
                rfl
              subst this
              rcases hkeep with h | ⟨h1, h2⟩
              · exact Or.inl (by omega)
              · exact Or.inr ⟨by omega, by rw [← h1]; exact h2⟩
            | succ j' =>
              rw [List.getElem?_cons_succ] at hj
              exact ha3 j' op'' hj
          · right
            refine ⟨k + 1, op', by rw [List.getElem?_cons_succ]; exact hk, hprio,
              by omega, hcmp, ?_, ?_⟩
            · intro j op'' hj
              cases j with
              | zero =>
                rw [List.getElem?_cons_zero] at hj
                have : op'' = op := by
                  have := Option.some.inj hj
                  cases this
                  rfl
                subst this
                rcases hcmp with h | ⟨h1, h2⟩ <;> rcases hkeep with h' | ⟨h1', h2'⟩
                · omega
                · omega
                · omega
                · -- p = bp with assoc true, q = bp with assoc false: impossible
                  rw [h1, ← h1'] at h2
                  rw [h2'] at h2
                  exact absurd h2 (by simp)
              | succ j' =>
                rw [List.getElem?_cons_succ] at hj
                exact hmin j' op'' hj
            · intro j op'' hj hpr
              cases j with
              | zero =>
                rw [List.getElem?_cons_zero] at hj
                have : op'' = op := by
                  have := Option.some.inj hj
                  cases this
                  rfl
                subst this
                -- the head has the minimal priority p, but the scan kept the
                -- incoming best and a later operator won: contradictions
                have hpq : p = q := by omega
                rcases hcmp with h | ⟨h1, h2⟩ <;> rcases hkeep with h' | ⟨h1', h2'⟩
                · omega
                · omega
                · omega
                · rw [h1, ← h1'] at h2
                  rw [h2'] at h2
                  exact absurd h2 (by simp)
              | succ j' =>
                rw [List.getElem?_cons_succ] at hj
                have := htie j' op'' hj hpr
                cases ha : operatorAssociativityLookup p <;>
                  simp only [ha, if_true, if_false, Bool.false_eq_true] at this ⊢ <;>
                  omega
      · rw [if_neg hcheck] at hscan
        exact absurd hscan (by simp)

/-- Error characterization of the operator-search scan: it aborts exactly
when some raw Operator token of the suffix fails the interior-position /
no-semicolon check. -/
lemma scanOps_error_iff (n : Nat) :
    ∀ (rest : List Token) (i : Nat) (best : Nat × Nat),
      (∃ e, scanOps n rest i best = .error e)
      ↔ ∃ (j : Nat) (op : Operator),
          rest[j]? = some (Token.operatorTok op)
          ∧ ¬((0 < i + j ∧ i + j < n - 1)
              ∧ op ≠ Operator.SEMICOLON_SEPARATOR) := by
  intro rest
  induction rest with
  | nil =>
    intro i best
    simp [scanOps]
  | cons t rest ih =>
    intro i best
    cases hop : getOperatorOf t with
    | none =>
      have ht : ∀ op', t ≠ Token.operatorTok op' := by
        intro op' he
        rw [he] at hop
        simp [getOperatorOf] at hop
      simp only [scanOps, hop]
      rw [ih (i + 1) best]
      constructor
      · rintro ⟨j, op, hj, hbad⟩
        exact ⟨j + 1, op, by rw [List.getElem?_cons_succ]; exact hj,
          fun hc => hbad ⟨⟨by omega, by omega⟩, hc.2⟩⟩
      · rintro ⟨j, op, hj, hbad⟩
        cases j with
        | zero =>
          rw [List.getElem?_cons_zero] at hj
          exact absurd (Option.some.inj hj) (ht op)
        | succ j' =>
          rw [List.getElem?_cons_succ] at hj
          exact ⟨j', op, hj, fun hc => hbad ⟨⟨by omega, by omega⟩, hc.2⟩⟩
    | some op =>
      have ht : t = Token.operatorTok op := getOperatorOf_eq_some.mp hop
      subst ht
      simp only [scanOps, getOperatorOf]
      by_cases hcheck : (0 < i ∧ i < n - 1) ∧ op ≠ Operator.SEMICOLON_SEPARATOR
      · rw [if_pos hcheck]
        rw [ih (i + 1) _]
        constructor
        · rintro ⟨j, op', hj, hbad⟩
          exact ⟨j + 1, op', by rw [List.getElem?_cons_succ]; exact hj,
            fun hc => hbad ⟨⟨by omega, by omega⟩, hc.2⟩⟩
        · rintro ⟨j, op', hj, hbad⟩
          cases j with
          | zero =>
            rw [List.getElem?_cons_zero] at hj
            have : op' = op := by
              have := Option.some.inj hj
              cases this
              rfl
            subst this
            exact absurd ⟨⟨by omega, by omega⟩, hcheck.2⟩ hbad
          | succ j' =>
            rw [List.getElem?_cons_succ] at hj
            exact ⟨j', op', hj, fun hc => hbad ⟨⟨by omega, by omega⟩, hc.2⟩⟩
      · rw [if_neg hcheck]
        refine iff_of_true ⟨_, rfl⟩
          ⟨0, op, by rw [List.getElem?_cons_zero], fun hc => ?_⟩
        exact hcheck ⟨⟨by omega, by omega⟩, hc.2⟩

/-- C1: every round of binary-operator folding selects the Operator token
with the smallest mapped priority over the whole unit; an exact priority tie
is decided by associativity — left-associative priorities keep the leftmost
occurrence (strict-less comparison), right-associative priorities (such as
assignment) select the rightmost occurrence; consequently a = b = c folds
the right assignment first and yields Assign(a, Assign(b, c)). -/
theorem binary_folding_selection_spec :
    (∀ (tokens : List Token) (p pos : Nat),
        findBestOperator tokens = .ok (p, pos) → pos ≠ 0 →
        (∃ op, tokens[pos]? = some (Token.operatorTok op)
            ∧ operatorPriorityLookup op = p)
        ∧ (∀ (j : Nat) (op' : Operator),
            tokens[j]? = some (Token.operatorTok op') →
            p ≤ operatorPriorityLookup op')
        ∧ (∀ (j : Nat) (op' : Operator),
            tokens[j]? = some (Token.operatorTok op') →
            operatorPriorityLookup op' = p →
            (if operatorAssociativityLookup p then j ≤ pos else pos ≤ j)))
    ∧ processBinaryOperations
        [.variableTok ("a") PredefinedDataTypes.UINT_8, .operatorTok .ASSIGN,
         .variableTok ("b") PredefinedDataTypes.UINT_8, .operatorTok .ASSIGN,
         .variableTok ("c") PredefinedDataTypes.UINT_8]
      = .ok [.binaryOperationTok .ASSIGN
              (.variableTok ("a") PredefinedDataTypes.UINT_8)
              (.binaryOperationTok .ASSIGN
                (.variableTok ("b") PredefinedDataTypes.UINT_8)
                (.variableTok ("c") PredefinedDataTypes.UINT_8))] := by
  constructor
  · intro tokens p pos hok hpos
    have h := scanOps_ok_spec tokens.length tokens 0 0xff 0 p pos hok
    rcases h with ⟨_, h2, _⟩ | ⟨k, op', hk, hprio, hposk, _, hmin, htie⟩
    · exact absurd h2 hpos
    · have hkpos : k = pos := by omega
      subst hkpos
      refine ⟨⟨op', hk, hprio⟩, hmin, ?_⟩
      intro j op'' hj hpr
      have := htie j op'' hj hpr
      simpa using this
  · rfl

/-- Witness for C1: in `1 + 2 * 3`, the selected round-one operator is the
multiplication at position 3, with the minimal priority 5. -/
theorem binary_folding_selection_spec_witness :
    ∃ op, ([Token.constantTok 1 PredefinedDataTypes.CONST_INT,
            .operatorTok .BINARY_PLUS,
            .constantTok 2 PredefinedDataTypes.CONST_INT,
            .operatorTok .BINARY_MULTIPLY,
            .constantTok 3 PredefinedDataTypes.CONST_INT] : List Token)[3]?
          = some (Token.operatorTok op)
        ∧ operatorPriorityLookup op = 5 :=
  (binary_folding_selection_spec.1
    [Token.constantTok 1 PredefinedDataTypes.CONST_INT,
     .operatorTok .BINARY_PLUS,
     .constantTok 2 PredefinedDataTypes.CONST_INT,
     .operatorTok .BINARY_MULTIPLY,
     .constantTok 3 PredefinedDataTypes.CONST_INT] 5 3 rfl (by decide)).1

/-- C6 (counterexample): a semicolon separator between two constant
statements — interior position, both neighbors statements — is nonetheless
a fatal error: the semicolon is not exempt from the operator-position
check; the check rejects it at every position. -/
theorem binary_semicolon_not_exempt_counterexample :
    processBinaryOperations
      [.constantTok 1 PredefinedDataTypes.CONST_INT,
       .operatorTok .SEMICOLON_SEPARATOR,
       .constantTok 2 PredefinedDataTypes.CONST_INT]
      = .error (.compileError ("Semicolon ; is only allowed in for-loops"))
    ∧ (Token.constantTok 1 PredefinedDataTypes.CONST_INT).isStatement = true
    ∧ (Token.constantTok 2 PredefinedDataTypes.CONST_INT).isStatement = true := by
  exact ⟨rfl, rfl, rfl⟩

/-- C6 (amended): the operator scan is fatal exactly when some raw Operator
token sits at the first or last position of the unit or is a semicolon
(at any position); an operator at the very front fails immediately with
getOperatorNotAllowedErrorMessage; and once an operator is selected, a
non-statement immediate left or right neighbor is fatal. -/
theorem binary_folding_position_errors_spec :
    (∀ tokens : List Token,
        (∃ e, findBestOperator tokens = .error e)
        ↔ ∃ (j : Nat) (op : Operator),
            tokens[j]? = some (Token.operatorTok op)
            ∧ (j = 0 ∨ j = tokens.length - 1
               ∨ op = Operator.SEMICOLON_SEPARATOR))
    ∧ (∀ (op : Operator) (rest : List Token),
        findBestOperator (.operatorTok op :: rest)
          = .error (.compileError (getOperatorNotAllowedErrorMessage op)))
    ∧ (∀ (tokens : List Token) (p pos : Nat) (l r : Token) (op : Operator),
        findBestOperator tokens = .ok (p, pos) → pos ≠ 0 →
        tokens[pos]? = some (Token.operatorTok op) →
        tokens[pos - 1]? = some l → tokens[pos + 1]? = some r →
        (l.isStatement = false →
          binaryOpRound tokens
            = .error (.compileError ("Left of operator is no statement")))
        ∧ (l.isStatement = true → r.isStatement = false →
          binaryOpRound tokens
            = .error (.compileError ("Right of operator is no statement")))) := by
  refine ⟨?_, ?_, ?_⟩
  · intro tokens
    unfold findBestOperator
    rw [scanOps_error_iff tokens.length tokens 0 (0xff, 0)]
    constructor
    · rintro ⟨j, op, hj, hbad⟩
      have hlt : j < tokens.length := by
        rcases List.getElem?_eq_some.mp hj with ⟨h, -⟩
        exact h
      refine ⟨j, op, hj, ?_⟩
      by_cases hsemi : op = Operator.SEMICOLON_SEPARATOR
      · exact Or.inr (Or.inr hsemi)
      · have hnum : ¬(0 < 0 + j ∧ 0 + j < tokens.length - 1) :=
          fun hc => hbad ⟨hc, hsemi⟩
        have : j = 0 ∨ j = tokens.length - 1 := by omega
        rcases this with h | h
        · exact Or.inl h
        · exact Or.inr (Or.inl h)
    · rintro ⟨j, op, hj, hcase⟩
      have hlt : j < tokens.length := by
        rcases List.getElem?_eq_some.mp hj with ⟨h, -⟩
        exact h
      refine ⟨j, op, hj, ?_⟩
      rintro ⟨⟨h1, h2⟩, h3⟩
      rcases hcase with rfl | h | h
      · omega
      · omega
      · exact h3 h
  · intro op rest
    unfold findBestOperator
    simp only [scanOps, getOperatorOf]
    rw [if_neg (by rintro ⟨⟨h, -⟩, -⟩; omega)]
  · intro tokens p pos l r op hok hpos htok hl hr
    constructor
    · intro hls
      simp [binaryOpRound, hok, hpos, htok, hl, hr, hls]
    · intro hls hrs
      simp [binaryOpRound, hok, hpos, htok, hl, hr, hls, hrs]

/-- Witness for the amended C6: in `1 + int32`, the operator `+` is
selected interiorly, its right neighbor is a VarType (not a statement), and
the round is fatal with the right-neighbor message. -/
theorem binary_folding_position_errors_spec_witness :
    binaryOpRound
      [Token.constantTok 1 PredefinedDataTypes.CONST_INT,
       .operatorTok .BINARY_PLUS,
       .varTypeTok PredefinedDataTypes.INT_32]
      = .error (.compileError ("Right of operator is no statement")) :=
  ((binary_folding_position_errors_spec.2.2
      [Token.constantTok 1 PredefinedDataTypes.CONST_INT,
       .operatorTok .BINARY_PLUS,
       .varTypeTok PredefinedDataTypes.INT_32] 6 1
      (.constantTok 1 PredefinedDataTypes.CONST_INT)
      (.varTypeTok PredefinedDataTypes.INT_32) .BINARY_PLUS
      rfl (by decide) rfl rfl rfl).2) rfl rfl

/-- C4 (failing input): constant folding of the seven listed operators is
immediate, with division by the literal zero yielding 0, but modulo has no
zero guard: `1 % 0` runs the C++ expression `constLeft.mValue % 0`, which is
undefined behavior (a hardware trap in practice), so modulo folding is not
defined for every pair of constant operands; the binary-folding round on the
token sequence `1 % 0` reaches exactly this evaluation. -/
theorem constantFolding_modulo_zero_bug :
    tryReplaceConstants 1 0 Operator.BINARY_MODULO = FoldResult.undefined
    ∧ processBinaryOperations
        [Token.constantTok 1 PredefinedDataTypes.CONST_INT,
         .operatorTok .BINARY_MODULO,
         .constantTok 0 PredefinedDataTypes.CONST_INT]
        = .error .undefinedBehavior
    ∧ tryReplaceConstants 5 0 Operator.BINARY_DIVIDE = FoldResult.folded 0
    ∧ tryReplaceConstants 7 3 Operator.BINARY_MODULO = FoldResult.folded 1
    ∧ tryReplaceConstants 2 3 Operator.BINARY_PLUS = FoldResult.folded 5
    ∧ tryReplaceConstants 2 3 Operator.COMPARE_LESS = FoldResult.notFolded := by
  exact ⟨rfl, rfl, rfl, rfl, rfl, rfl⟩

/-- C5 (counterexample): with D1 registered as `7 D2` and D2 as `9`, the
single scan of processDefines expands D1 and then, continuing past the
splice, also expands the nested D2 — the output is `7 9`, not the un-expanded
splice `7 D2` the claim predicts. -/
theorem processDefines_reexpansion_counterexample :
    processDefines defineLookupC5 10 [Token.identifier ("D1")]
      = [.constantTok 7 PredefinedDataTypes.CONST_INT,
         .constantTok 9 PredefinedDataTypes.CONST_INT]
    ∧ processDefines defineLookupC5 10 [Token.identifier ("D1")]
        ≠ [.constantTok 7 PredefinedDataTypes.CONST_INT, .identifier ("D2")] := by
  refine ⟨rfl, fun h => ?_⟩
  rw [show processDefines defineLookupC5 10 [Token.identifier ("D1")]
      = [.constantTok 7 PredefinedDataTypes.CONST_INT,
         .constantTok 9 PredefinedDataTypes.CONST_INT] from rfl] at h
  simp at h

/-- C5 (amended): the scan replaces a matching identifier by the define's
content in place and resumes one position past the splice start, so the
first spliced token is never re-examined, while defines occurring later in
the spliced content are re-examined and expanded in the same pass. -/
theorem processDefines_single_scan_spec :
    (∀ (getDefineByName : String → Option (List Token)) (d1 d2 : String)
        (v w : Int) (dt dt2 : DT),
        getDefineByName d1 = some [.constantTok v dt, .identifier d2] →
        getDefineByName d2 = some [.constantTok w dt2] →
        processDefines getDefineByName 4 [Token.identifier d1]
          = [.constantTok v dt, .constantTok w dt2])
    ∧ (∀ (getDefineByName : String → Option (List Token)) (d1 d2 : String),
        getDefineByName d1 = some [.identifier d2] →
        processDefines getDefineByName 2 [Token.identifier d1]
          = [.identifier d2]) := by
  constructor
  · intro getDefineByName d1 d2 v w dt dt2 h1 h2
    simp [processDefines, processDefinesLoop, h1, h2]
  · intro getDefineByName d1 d2 h1
    simp [processDefines, processDefinesLoop, h1]

/-- Witness for the amended C5 at the concrete registry. -/
theorem processDefines_single_scan_spec_witness :
    processDefines defineLookupC5 4 [Token.identifier ("D1")]
      = [.constantTok 7 PredefinedDataTypes.CONST_INT,
         .constantTok 9 PredefinedDataTypes.CONST_INT] :=
  processDefines_single_scan_spec.1 defineLookupC5 ("D1") ("D2") 7 9
    PredefinedDataTypes.CONST_INT PredefinedDataTypes.CONST_INT rfl rfl

/-- C7 (counterexample): a binary-minus preceded by a VarType token is
preceded by a non-statement token, yet the unary pass leaves it in place —
the fold condition is "preceded by an Operator token", not "not preceded by
a statement token". -/
theorem processUnary_minus_counterexample :
    processUnaryOperations
      [Token.varTypeTok PredefinedDataTypes.INT_32, .operatorTok .BINARY_MINUS,
       .constantTok 5 PredefinedDataTypes.CONST_INT]
      = .ok [Token.varTypeTok PredefinedDataTypes.INT_32,
             .operatorTok .BINARY_MINUS,
             .constantTok 5 PredefinedDataTypes.CONST_INT]
    ∧ (Token.varTypeTok PredefinedDataTypes.INT_32).isStatement = false := by
  exact ⟨rfl, rfl⟩

/-- C7 (amended): in the reverse sub-pass a binary-minus folds as unary
negation exactly when it sits at position 0 or its left neighbor is an
Operator token (a non-statement, non-operator neighbor such as a VarType
keeps it binary); logical-not and bitwise-not fold a following statement and
are fatal at the last position or on a non-statement operand; prefix
increment/decrement fold only a following statement and skip silently
otherwise. -/
theorem processUnaryOperations_spec :
    (∀ (op : Operator) (v : Int) (dt : DT),
        op = .BINARY_PLUS ∨ op = .BINARY_MULTIPLY →
        processUnaryOperations
          [.operatorTok op, .operatorTok .BINARY_MINUS, .constantTok v dt]
          = .ok [.operatorTok op,
                 .unaryOperationTok .BINARY_MINUS (.constantTok v dt)])
    ∧ (∀ (dtv : DT) (v : Int) (dt : DT),
        processUnaryOperations
          [.varTypeTok dtv, .operatorTok .BINARY_MINUS, .constantTok v dt]
          = .ok [.varTypeTok dtv, .operatorTok .BINARY_MINUS, .constantTok v dt])
    ∧ (∀ (v : Int) (dt : DT),
        processUnaryOperations [.operatorTok .BINARY_MINUS, .constantTok v dt]
          = .ok [.unaryOperationTok .BINARY_MINUS (.constantTok v dt)])
    ∧ (∀ (v w : Int) (dt du : DT),
        processUnaryOperations
          [.constantTok v dt, .operatorTok .BINARY_MINUS, .constantTok w du]
          = .ok [.constantTok v dt, .operatorTok .BINARY_MINUS, .constantTok w du])
    ∧ (∀ (v : Int) (dt : DT) (u : Operator),
        u = .BINARY_MINUS ∨ u = .UNARY_NOT ∨ u = .UNARY_BITNOT →
        processUnaryOperations [.constantTok v dt, .operatorTok u]
          = .error (.compileError ("Unary operator not allowed as last")))
    ∧ (∀ (v : Int) (dt : DT) (u : Operator),
        u = .UNARY_NOT ∨ u = .UNARY_BITNOT →
        processUnaryOperations [.operatorTok u, .constantTok v dt]
          = .ok [.unaryOperationTok u (.constantTok v dt)])
    ∧ (∀ (dtv : DT) (u : Operator), u = .UNARY_NOT ∨ u = .UNARY_BITNOT →
        processUnaryOperations [.operatorTok u, .varTypeTok dtv]
          = .error (.compileError ("Right of operator is no statement")))
    ∧ (∀ (v : Int) (dt : DT),
        processUnaryOperations [.operatorTok .UNARY_INCREMENT, .constantTok v dt]
          = .ok [.unaryOperationTok .UNARY_INCREMENT (.constantTok v dt)])
    ∧ (∀ (dtv : DT),
        processUnaryOperations [.operatorTok .UNARY_INCREMENT, .varTypeTok dtv]
          = .ok [.operatorTok .UNARY_INCREMENT, .varTypeTok dtv]) := by
  refine ⟨?_, fun _ _ _ => rfl, fun _ _ => rfl, fun _ _ _ _ => rfl, ?_, ?_, ?_,
    fun _ _ => rfl, fun _ => rfl⟩
  · rintro op v dt (rfl | rfl) <;> rfl
  · rintro v dt u (rfl | rfl | rfl) <;> rfl
  · rintro v dt u (rfl | rfl) <;> rfl
  · rintro dtv u (rfl | rfl) <;> rfl

/-- Witness for the amended C7: an operator-preceded minus folds, at the
concrete predecessor `+`. -/
theorem processUnaryOperations_spec_witness :
    processUnaryOperations
      [.operatorTok .BINARY_PLUS, .operatorTok .BINARY_MINUS,
       .constantTok 5 PredefinedDataTypes.CONST_INT]
      = .ok [.operatorTok .BINARY_PLUS,
             .unaryOperationTok .BINARY_MINUS
               (.constantTok 5 PredefinedDataTypes.CONST_INT)] :=
  processUnaryOperations_spec.1 .BINARY_PLUS 5 PredefinedDataTypes.CONST_INT
    (Or.inl rfl)

lemma sizeTSubOne_two : sizeTSubOne 2 = 1 := by
  unfold sizeTSubOne
  omega

lemma sizeTSubOne_one : sizeTSubOne 1 = 0 := by
  unfold sizeTSubOne
  omega

/-- C8: memory-access recognition requires the bracket content to be exactly
one statement token: zero tokens or two or more tokens are fatal, a single
non-statement token is fatal, and in particular the comma-separated content
of int32[a, b] — one CommaSeparatedList token, which is not a statement — is
fatal; a single statement token collapses the pair into a MemoryAccessToken
carrying the VarType's data type and the inner statement as address. -/
theorem processMemoryAccesses_spec :
    (∀ dt : DT,
        processMemoryAccesses [.varTypeTok dt, .parenthesisTok .BRACKET []]
          = .error (.compileError ("Expected exactly one token inside brackets")))
    ∧ (∀ (dt : DT) (x y : Token) (rest : List Token),
        processMemoryAccesses
          [.varTypeTok dt, .parenthesisTok .BRACKET (x :: y :: rest)]
          = .error (.compileError ("Expected exactly one token inside brackets")))
    ∧ (∀ (dt : DT) (inner : Token), inner.isStatement = false →
        processMemoryAccesses [.varTypeTok dt, .parenthesisTok .BRACKET [inner]]
          = .error (.compileError ("Expected statement token inside brackets")))
    ∧ (∀ (dt : DT) (inner : Token), inner.isStatement = true →
        processMemoryAccesses [.varTypeTok dt, .parenthesisTok .BRACKET [inner]]
          = .ok [.memoryAccessTok dt inner])
    ∧ (∀ (dt du dw : DT) (a b : String),
        processCommaSeparatorsUnit
          [.variableTok a dt, .operatorTok .COMMA_SEPARATOR, .variableTok b du]
          = ([.commaListTok [[.variableTok a dt], [.variableTok b du]]],
             [[.variableTok a dt], [.variableTok b du]])
        ∧ (Token.commaListTok [[.variableTok a dt], [.variableTok b du]]).isStatement
            = false
        ∧ processMemoryAccesses
            [.varTypeTok dw, .parenthesisTok .BRACKET
              [.commaListTok [[.variableTok a dt], [.variableTok b du]]]]
            = .error (.compileError ("Expected statement token inside brackets"))) := by
  refine ⟨?_, ?_, ?_, ?_, fun dt du dw a b => ⟨rfl, rfl, ?_⟩⟩
  · intro dt
    simp only [processMemoryAccesses, List.length_cons, List.length_nil,
      Nat.zero_add, Nat.reduceAdd]
    simp only [processMemoryAccessesLoop]
    norm_num [sizeTSubOne_two, sizeTSubOne_one]
  · intro dt x y rest
    simp only [processMemoryAccesses, List.length_cons, List.length_nil,
      Nat.zero_add, Nat.reduceAdd]
    simp only [processMemoryAccessesLoop]
    norm_num [sizeTSubOne_two, sizeTSubOne_one]
  · intro dt inner h
    simp only [processMemoryAccesses, List.length_cons, List.length_nil,
      Nat.zero_add, Nat.reduceAdd]
    simp only [processMemoryAccessesLoop, h]
    norm_num [sizeTSubOne_two, sizeTSubOne_one]
    intro h2
    rw [h] at h2
    exact Bool.noConfusion h2
  · intro dt inner h
    simp only [processMemoryAccesses, List.length_cons, List.length_nil,
      Nat.zero_add, Nat.reduceAdd]
    simp only [processMemoryAccessesLoop, h]
    norm_num [sizeTSubOne_two, sizeTSubOne_one]
    intro h2
    rw [h] at h2
    exact Bool.noConfusion h2
  · simp only [processMemoryAccesses, List.length_cons, List.length_nil,
      Nat.zero_add, Nat.reduceAdd]
    simp only [processMemoryAccessesLoop, Token.isStatement]
    norm_num [sizeTSubOne_two, sizeTSubOne_one]

/-- Witness for C8: at a concrete variable address, int32[a] collapses
into a memory access. -/
theorem processMemoryAccesses_spec_witness :
    processMemoryAccesses
      [.varTypeTok PredefinedDataTypes.INT_32,
       .parenthesisTok .BRACKET [.variableTok ("a") PredefinedDataTypes.UINT_8]]
      = .ok [.memoryAccessTok PredefinedDataTypes.INT_32
              (.variableTok ("a") PredefinedDataTypes.UINT_8)] :=
  processMemoryAccesses_spec.2.2.2.1 PredefinedDataTypes.INT_32
    (.variableTok ("a") PredefinedDataTypes.UINT_8) rfl

/-- C9 (counterexample): a memory access whose address sub-expression
resolves to void — a call to the registered `foo : () -> void` — is accepted
by the type-assignment pass, although void cannot cast to the address type
uint32 (priority 0xff): the fixed address type is a top-down hint only, not
a verified constraint. -/
theorem memoryAccess_address_not_verified_counterexample :
    assignStatementDataType voidFunctionContext 10
        (.memoryAccessTok PredefinedDataTypes.UINT_8
          (.functionTok ("foo") [] false none)) none
      = .ok (.memoryAccessTok PredefinedDataTypes.UINT_8
              (.functionTok ("foo") [] false
                (some ⟨"foo", [], PredefinedDataTypes.VOID⟩)),
             PredefinedDataTypes.UINT_8)
    ∧ assignStatementDataType voidFunctionContext 10
        (.functionTok ("foo") [] false none) (some PredefinedDataTypes.UINT_32)
      = .ok (.functionTok ("foo") [] false
              (some ⟨"foo", [], PredefinedDataTypes.VOID⟩),
             PredefinedDataTypes.VOID)
    ∧ getImplicitCastPriority PredefinedDataTypes.VOID PredefinedDataTypes.UINT_32
        = 0xff := by
  exact ⟨rfl, rfl, rfl⟩

/-- C9 (amended): the memory-access token keeps the data type assigned at
its creation, and its address sub-expression is typed with the 32-bit
unsigned address type passed down as the expected-type hint only; success of
the pass depends only on the address sub-expression typing itself, with no
comparison of the address's resolved type against the address type. -/
theorem memoryAccess_address_hint_only_spec :
    (∀ (ctx : CompileContext) (fuel : Nat) (dataType : DT) (address : Token)
        (resultType : Option DT) (newTok : Token) (dtOut : DT),
        assignStatementDataType ctx (fuel + 1)
            (.memoryAccessTok dataType address) resultType = .ok (newTok, dtOut) →
        dtOut = dataType
        ∧ ∃ newAddress addressType,
            assignStatementDataType ctx fuel address
                (some PredefinedDataTypes.UINT_32) = .ok (newAddress, addressType)
            ∧ newTok = .memoryAccessTok dataType newAddress)
    ∧ (∀ (ctx : CompileContext) (fuel : Nat) (dataType : DT) (address : Token)
        (resultType : Option DT) (newAddress : Token) (addressType : DT),
        assignStatementDataType ctx fuel address (some PredefinedDataTypes.UINT_32)
          = .ok (newAddress, addressType) →
        assignStatementDataType ctx (fuel + 1)
            (.memoryAccessTok dataType address) resultType
          = .ok (.memoryAccessTok dataType newAddress, dataType)) := by
  constructor
  · intro ctx fuel dataType address resultType newTok dtOut h
    simp only [assignStatementDataType] at h
    cases hinner : assignStatementDataType ctx fuel address
        (some PredefinedDataTypes.UINT_32) with
    | error e => rw [hinner] at h; exact absurd h (by simp)
    | ok pair =>
      rw [hinner] at h
      obtain ⟨newAddress, addressType⟩ := pair
      simp only [Except.ok.injEq, Prod.mk.injEq] at h
      exact ⟨h.2.symm, newAddress, addressType, rfl, h.1.symm⟩
  · intro ctx fuel dataType address resultType newAddress addressType h
    simp only [assignStatementDataType]
    rw [h]

/-- Witness for the amended C9 at the void-address example (with an
arbitrary expected type on the access itself). -/
theorem memoryAccess_address_hint_only_spec_witness :
    assignStatementDataType voidFunctionContext 10
        (.memoryAccessTok PredefinedDataTypes.UINT_8
          (.functionTok ("foo") [] false none))
        (some PredefinedDataTypes.UINT_64)
      = .ok (.memoryAccessTok PredefinedDataTypes.UINT_8
              (.functionTok ("foo") [] false
                (some ⟨"foo", [], PredefinedDataTypes.VOID⟩)),
             PredefinedDataTypes.UINT_8) :=
  memoryAccess_address_hint_only_spec.2 voidFunctionContext 9
    PredefinedDataTypes.UINT_8 (.functionTok ("foo") [] false none)
    (some PredefinedDataTypes.UINT_64)
    (.functionTok ("foo") [] false (some ⟨"foo", [], PredefinedDataTypes.VOID⟩))
    PredefinedDataTypes.VOID rfl

/-- C10: the three recognition passes iterate up to `tokens.size() - 1`
computed in size_t, so on an empty unit the wrapped bound makes the first
iteration read index 0 of an empty list — the out-of-bounds branch of the
total embedding; and an empty unit is exactly what comma splitting inserts
into the worklist for an empty comma-separated item (the middle item of
`a,,b`). -/
theorem recognition_passes_empty_unit_out_of_bounds :
    processFunctionCalls (fun _ => []) [] = .error .outOfBounds
    ∧ processMemoryAccesses [] = .error .outOfBounds
    ∧ processExplicitCasts [] = .error .outOfBounds
    ∧ splitAtCommas
        [.variableTok ("a") PredefinedDataTypes.UINT_8, .operatorTok .COMMA_SEPARATOR,
         .operatorTok .COMMA_SEPARATOR, .variableTok ("b") PredefinedDataTypes.UINT_8]
        = [[.variableTok ("a") PredefinedDataTypes.UINT_8], [],
           [.variableTok ("b") PredefinedDataTypes.UINT_8]]
    ∧ processCommaSeparatorsUnit
        [.variableTok ("a") PredefinedDataTypes.UINT_8, .operatorTok .COMMA_SEPARATOR,
         .operatorTok .COMMA_SEPARATOR, .variableTok ("b") PredefinedDataTypes.UINT_8]
        = ([.commaListTok
             [[.variableTok ("a") PredefinedDataTypes.UINT_8], [],
              [.variableTok ("b") PredefinedDataTypes.UINT_8]]],
           [[.variableTok ("a") PredefinedDataTypes.UINT_8], [],
            [.variableTok ("b") PredefinedDataTypes.UINT_8]]) := by
  exact ⟨rfl, rfl, rfl, rfl, rfl⟩

end Lemon
